import Mathlib

/-!
Verification of the routing/state core of `opencode-model-router`
(`opencode-virtual-provider`): duration parsing, cooldown store, metrics,
target-selection strategies, retry/backoff execution, config merge,
config loading/validation, the per-message resolver and the session
fallback cursor of the plugin's event hook.

Modelling conventions:
* JavaScript numbers are modelled as `ℚ` (exact arithmetic); counters as `ℕ`.
* `Map` objects are modelled as functions `String → Option α`; `Map.set`
  updates the function at one key, `Map.delete` sets it to `none`.
* `Date.now()` is passed in explicitly as a rational `now` parameter
  (one instant per operation).
* Fallible operations (the source throws) return `Except String α`.
* `Math.random()` is modelled by an oracle `rng : ℕ → ℚ` of successive
  draws.  `Array.prototype.sort` with a comparator is modelled as an
  insertion sort driven by the comparator; with an inconsistent
  comparator ECMA‑262 leaves the order implementation-defined but the
  result is always a permutation of the input, and every property proved
  here about the `random`/`weighted` strategies depends only on that
  permutation property.
-/

namespace OMR

/-! ## util/duration.ts -/

def isDig (c : Char) : Bool := '0' ≤ c && c ≤ '9'

/-- Numeric value of a digit string (most significant first). -/
def digitsVal (cs : List Char) : ℕ :=
  cs.foldl (fun acc c => acc * 10 + (c.toNat - '0'.toNat)) 0

/-- The multiplier attached to a unit suffix by `parseDuration`'s `switch`;
fails on anything that is not exactly `ms`, `s`, `m` or `h`
(the regexp `(ms|s|m|h)$`). -/
def unitFactor (u : List Char) : Except String ℚ :=
  if u = ['m', 's'] then .ok 1
  else if u = ['s'] then .ok 1000
  else if u = ['m'] then .ok (60 * 1000)
  else if u = ['h'] then .ok (60 * 60 * 1000)
  else .error "Invalid duration"

/-- `parseDuration` from `src/util/duration.ts`: the regexp
`^(\d+(?:\.\d+)?)(ms|s|m|h)$` followed by `parseFloat` and the unit
`switch`.  The regexp is realised directly: a non-empty run of ASCII
digits, then optionally a dot followed by a non-empty run of digits,
then the unit suffix which must end the string. -/
def parseDuration (s : String) : Except String ℚ :=
  if (s.data.takeWhile isDig).isEmpty then .error ("Invalid duration: " ++ s)
  else if (s.data.dropWhile isDig).head? = some '.' then
    -- the optional fractional group `(?:\.\d+)?` is taken; if it cannot be
    -- completed (`\d+` empty) the whole match fails, because none of the unit
    -- alternatives can start at the dot either
    if ((s.data.dropWhile isDig).tail.takeWhile isDig).isEmpty then
      .error ("Invalid duration: " ++ s)
    else
      (unitFactor ((s.data.dropWhile isDig).tail.dropWhile isDig)).map
        (fun f =>
          ((digitsVal (s.data.takeWhile isDig) : ℚ) +
            (digitsVal ((s.data.dropWhile isDig).tail.takeWhile isDig) : ℚ) /
              10 ^ ((s.data.dropWhile isDig).tail.takeWhile isDig).length) * f)
  else
    (unitFactor (s.data.dropWhile isDig)).map
      (fun f => (digitsVal (s.data.takeWhile isDig) : ℚ) * f)

/-- Spec-side description of a well-formed duration string: an integer or
decimal magnitude (digits, optionally a dot and more digits) immediately
followed by one of the four unit suffixes. -/
structure DurShape where
  intDigits : List Char
  fracDigits : Option (List Char)
  unitChars : List Char

def DurShape.wf (d : DurShape) : Prop :=
  d.intDigits ≠ [] ∧ (∀ c ∈ d.intDigits, isDig c) ∧
  (∀ f, d.fracDigits = some f → f ≠ [] ∧ ∀ c ∈ f, isDig c) ∧
  d.unitChars ∈ [['m', 's'], ['s'], ['m'], ['h']]

def DurShape.chars (d : DurShape) : List Char :=
  d.intDigits ++ (match d.fracDigits with | none => [] | some f => '.' :: f) ++ d.unitChars

/-- The magnitude denoted by the decimal literal. -/
def DurShape.magnitude (d : DurShape) : ℚ :=
  (digitsVal d.intDigits : ℚ) +
    (match d.fracDigits with
     | none => 0
     | some f => (digitsVal f : ℚ) / 10 ^ f.length)

def DurShape.factor (d : DurShape) : ℚ :=
  if d.unitChars = ['m', 's'] then 1
  else if d.unitChars = ['s'] then 1000
  else if d.unitChars = ['m'] then 60 * 1000
  else 60 * 60 * 1000

lemma takeWhile_append_eq (p : Char → Bool) (l1 l2 : List Char)
    (h1 : ∀ c ∈ l1, p c) (h2 : ∀ x, l2.head? = some x → ¬ p x) :
    (l1 ++ l2).takeWhile p = l1 ∧ (l1 ++ l2).dropWhile p = l2 := by
  induction l1 with
  | nil =>
    simp only [List.nil_append]
    cases l2 with
    | nil => simp [List.takeWhile, List.dropWhile]
    | cons x xs =>
      have hx : ¬ p x := h2 x rfl
      simp [List.takeWhile, List.dropWhile, hx]
  | cons c cs ih =>
    have hc : p c = true := h1 c (List.mem_cons_self c cs)
    have ih' := ih (fun d hd => h1 d (List.mem_cons_of_mem c hd))
    simp [List.takeWhile, List.dropWhile, hc, ih'.1, ih'.2]

lemma unitFactor_ok_cases {l : List Char} {f : ℚ} (h : unitFactor l = .ok f) :
    l ∈ [['m', 's'], ['s'], ['m'], ['h']] := by
  unfold unitFactor at h
  split_ifs at h <;> simp_all

lemma mem_takeWhile_dig {l : List Char} {c : Char} (h : c ∈ l.takeWhile isDig) :
    isDig c :=
  List.mem_takeWhile_imp h

lemma unit_head_not_dig {u : List Char} (hu : u ∈ [['m', 's'], ['s'], ['m'], ['h']]) :
    ∀ x, u.head? = some x → ¬ isDig x := by
  simp only [List.mem_cons, List.not_mem_nil, or_false] at hu
  rcases hu with h | h | h | h <;> subst h <;> intro x hx <;>
    simp only [List.head?, Option.some.injEq] at hx <;> subst hx <;> decide

/-- Rendering a well-formed duration shape parses to its value. -/
lemma parseDuration_renders (s : String) (d : DurShape) (hwf : d.wf)
    (hr : s.data = d.chars) : parseDuration s = .ok (d.magnitude * d.factor) := by
  obtain ⟨ints, fr, units⟩ := d
  obtain ⟨hne, hdig, hfrac, hunit⟩ := hwf
  simp only at hne hdig hfrac hunit
  have huhead : ∀ x, units.head? = some x → ¬ isDig x := unit_head_not_dig hunit
  simp only [List.mem_cons, List.not_mem_nil, or_false] at hunit
  unfold parseDuration
  rcases fr with _ | f
  · -- integer magnitude
    have hchars : s.data = ints ++ units := by
      rw [hr]; simp [DurShape.chars]
    have hsplit := takeWhile_append_eq isDig ints units hdig huhead
    rw [hchars, hsplit.1, hsplit.2]
    have h1 : ints.isEmpty = false := by
      simpa [List.isEmpty_iff] using hne
    have h2 : units.head? ≠ some '.' := by
      rcases hunit with h | h | h | h <;> subst h <;> decide
    rw [h1]
    simp only [Bool.false_eq_true, if_false, if_neg h2]
    rcases hunit with h | h | h | h <;> subst h <;>
      simp [unitFactor, Except.map, DurShape.magnitude, DurShape.factor]
  · -- decimal magnitude
    have hfne : f ≠ [] := (hfrac f rfl).1
    have hfdig : ∀ c ∈ f, isDig c := (hfrac f rfl).2
    have hchars : s.data = ints ++ ('.' :: (f ++ units)) := by
      rw [hr]; simp [DurShape.chars]
    have hsplit := takeWhile_append_eq isDig ints ('.' :: (f ++ units)) hdig
      (by intro x hx
          simp only [List.head?_cons, Option.some.injEq] at hx
          subst hx; decide)
    rw [hchars, hsplit.1, hsplit.2]
    have h1 : ints.isEmpty = false := by
      simpa [List.isEmpty_iff] using hne
    rw [h1]
    simp only [Bool.false_eq_true, if_false, List.head?_cons, if_pos rfl, List.tail_cons]
    have hsplit2 := takeWhile_append_eq isDig f units hfdig huhead
    rw [hsplit2.1, hsplit2.2]
    have h3 : f.isEmpty = false := by simpa [List.isEmpty_iff] using hfne
    rw [h3]
    simp only [Bool.false_eq_true, if_false]
    rcases hunit with h | h | h | h <;> subst h <;>
      simp [unitFactor, Except.map, DurShape.magnitude, DurShape.factor]

/-- A successful parse exhibits a well-formed duration shape. -/
lemma parseDuration_ok_shape (s : String) (hok : (parseDuration s).isOk) :
    ∃ d : DurShape, d.wf ∧ s.data = d.chars := by
  unfold parseDuration at hok
  set cs := s.data with hcs
  have hsplit : cs.takeWhile isDig ++ cs.dropWhile isDig = cs :=
    List.takeWhile_append_dropWhile isDig cs
  by_cases hint : (cs.takeWhile isDig).isEmpty
  · rw [if_pos hint] at hok; simp [Except.isOk, Except.toBool] at hok
  · rw [if_neg hint] at hok
    by_cases hdot : (cs.dropWhile isDig).head? = some '.'
    · rw [if_pos hdot] at hok
      by_cases hfrac : ((cs.dropWhile isDig).tail.takeWhile isDig).isEmpty
      · rw [if_pos hfrac] at hok; simp [Except.isOk, Except.toBool] at hok
      · rw [if_neg hfrac] at hok
        rcases hu : unitFactor ((cs.dropWhile isDig).tail.dropWhile isDig) with e | fac
        · rw [hu] at hok; simp [Except.isOk, Except.toBool, Except.map] at hok
        · refine ⟨⟨cs.takeWhile isDig, some ((cs.dropWhile isDig).tail.takeWhile isDig),
            (cs.dropWhile isDig).tail.dropWhile isDig⟩, ?_, ?_⟩
          · refine ⟨by simpa [List.isEmpty_iff] using hint,
              fun c hc => mem_takeWhile_dig hc, ?_, unitFactor_ok_cases hu⟩
            intro f' hf'
            cases hf'
            exact ⟨by simpa [List.isEmpty_iff] using hfrac,
              fun c hc => mem_takeWhile_dig hc⟩
          · show cs = _
            rw [DurShape.chars]
            simp only
            conv_lhs => rw [← hsplit]
            have htl : cs.dropWhile isDig = '.' :: (cs.dropWhile isDig).tail := by
              rcases h : cs.dropWhile isDig with _ | ⟨c, r⟩
              · rw [h] at hdot; simp [List.head?] at hdot
              · rw [h] at hdot; simp only [List.head?] at hdot
                cases hdot; rfl
            rw [htl]
            simp [List.takeWhile_append_dropWhile]
    · rw [if_neg hdot] at hok
      rcases hu : unitFactor (cs.dropWhile isDig) with e | fac
      · rw [hu] at hok; simp [Except.isOk, Except.toBool, Except.map] at hok
      · refine ⟨⟨cs.takeWhile isDig, none, cs.dropWhile isDig⟩, ?_, ?_⟩
        · refine ⟨by simpa [List.isEmpty_iff] using hint,
            fun c hc => mem_takeWhile_dig hc, ?_, unitFactor_ok_cases hu⟩
          intro f' hf'
          cases hf'
        · show cs = _
          rw [DurShape.chars]
          simp only
          conv_lhs => rw [← hsplit]
          simp

/-- Claim C8: `parseDuration` succeeds exactly on strings consisting of an
integer or decimal magnitude immediately followed by one of the unit
suffixes `ms`, `s`, `m`, `h`, returning the magnitude times 1, 1000,
60000 or 3600000 milliseconds respectively; every other input string
produces an error (a hard parse failure). -/
theorem parseDuration_spec (s : String) :
    ((parseDuration s).isOk ↔ ∃ d : DurShape, d.wf ∧ s.data = d.chars) ∧
    (∀ d : DurShape, d.wf → s.data = d.chars →
      parseDuration s = .ok (d.magnitude * d.factor)) := by
  refine ⟨⟨parseDuration_ok_shape s, ?_⟩, fun d hwf hr => parseDuration_renders s d hwf hr⟩
  rintro ⟨d, hwf, hr⟩
  rw [parseDuration_renders s d hwf hr]
  rfl

/-- Witness for C8 at the concrete input "1.5h". -/
theorem parseDuration_spec_witness : parseDuration "1.5h" = .ok 5400000 := by
  have h := (parseDuration_spec "1.5h").2 ⟨['1'], some ['5'], ['h']⟩
    (by refine ⟨by decide, by decide, ?_, by decide⟩
        intro f hf
        cases hf
        exact ⟨by decide, by decide⟩)
    (by decide)
  rw [h]
  have hfac : ({ intDigits := ['1'], fracDigits := some ['5'], unitChars := ['h'] } :
      DurShape).factor = 60 * 60 * 1000 := by
    simp [DurShape.factor]
  have hmag : ({ intDigits := ['1'], fracDigits := some ['5'], unitChars := ['h'] } :
      DurShape).magnitude = 1 + 5 / 10 := by
    simp [DurShape.magnitude, digitsVal]
  rw [hfac, hmag]
  norm_num

/-! ## router/state.ts -/

/-- `Map.set`: update a map (modelled as a function) at one key. -/
def mapSet {α : Type} (m : String → Option α) (k : String) (v : α) :
    String → Option α :=
  fun x => if x = k then some v else m x

/-- `Map.delete`. -/
def mapDel {α : Type} (m : String → Option α) (k : String) : String → Option α :=
  fun x => if x = k then none else m x

structure ModelMetrics where
  requests : ℕ
  successes : ℕ
  failures : ℕ
  fallbacks : ℕ
  totalLatencyMs : ℚ
deriving DecidableEq

structure RouterState where
  cooldowns : String → Option ℚ
  roundRobinIndex : String → Option ℕ
  metrics : String → Option ModelMetrics

def createRouterState : RouterState :=
  { cooldowns := fun _ => none, roundRobinIndex := fun _ => none,
    metrics := fun _ => none }

/-- `isInCooldown` from `src/router/state.ts`.  Returns the boolean together
with the (possibly cleaned-up) state; `now` stands for `Date.now()`.
The source's `if (!expiry) return false` is a JS falsiness test, which is
also taken when the stored expiry is the number `0`. -/
def isInCooldown (modelKey : String) (now : ℚ) (state : RouterState) :
    Bool × RouterState :=
  match state.cooldowns modelKey with
  | none => (false, state)
  | some expiry =>
    if expiry = 0 then (false, state)
    else if now ≥ expiry then
      (false, { state with cooldowns := mapDel state.cooldowns modelKey })
    else (true, state)

/-- `setCooldown` from `src/router/state.ts`.  `if (!duration) return` is a
falsiness test: absent and empty-string durations are both no-ops.
`parseDuration` may throw, hence the `Except`. -/
def setCooldown (modelKey : String) (duration : Option String) (now : ℚ)
    (state : RouterState) : Except String RouterState :=
  match duration with
  | none => .ok state
  | some d =>
    if d = "" then .ok state
    else (parseDuration d).map fun ms =>
      { state with cooldowns := mapSet state.cooldowns modelKey (now + ms) }

def emptyMetrics : ModelMetrics :=
  { requests := 0, successes := 0, failures := 0, fallbacks := 0, totalLatencyMs := 0 }

/-- `getOrCreateMetrics` merged with the subsequent field updates: the
source fetches or lazily creates the entry and mutates it in place. -/
def mview (state : RouterState) (modelKey : String) : ModelMetrics :=
  (state.metrics modelKey).getD emptyMetrics

def recordSuccess (modelKey : String) (latencyMs : ℚ) (state : RouterState) :
    RouterState :=
  let m := mview state modelKey
  let m' : ModelMetrics :=
    { m with requests := m.requests + 1, successes := m.successes + 1,
             totalLatencyMs := m.totalLatencyMs + latencyMs }
  { state with metrics := mapSet state.metrics modelKey m' }

def recordFailure (modelKey : String) (state : RouterState) : RouterState :=
  let m := mview state modelKey
  let m' : ModelMetrics := { m with requests := m.requests + 1, failures := m.failures + 1 }
  { state with metrics := mapSet state.metrics modelKey m' }

def recordFallback (modelKey : String) (state : RouterState) : RouterState :=
  let m := mview state modelKey
  let m' : ModelMetrics := { m with fallbacks := m.fallbacks + 1 }
  { state with metrics := mapSet state.metrics modelKey m' }

/-- Claim C5: cooldown-store semantics.  `isInCooldown(key)` is true iff an
entry exists whose expiry is strictly in the future, lazily deletes an
entry whose (positive) expiry has passed and touches no other key;
`setCooldown` is a no-op for an absent duration, and otherwise overwrites
the key's entry with `now + parsed duration` (cooldowns never stack or
extend). -/
theorem cooldown_store_spec (key : String) (now : ℚ) (st : RouterState)
    (h0 : 0 ≤ now) :
    ((isInCooldown key now st).1 = true ↔
      ∃ e, st.cooldowns key = some e ∧ now < e) ∧
    (∀ e, st.cooldowns key = some e → 0 < e →
      (isInCooldown key now st).2.cooldowns key =
        if e ≤ now then none else some e) ∧
    (∀ k, k ≠ key → (isInCooldown key now st).2.cooldowns k = st.cooldowns k) ∧
    (setCooldown key none now st = .ok st) ∧
    (∀ d ms, d ≠ "" → parseDuration d = .ok ms →
      setCooldown key (some d) now st =
        .ok { st with cooldowns := mapSet st.cooldowns key (now + ms) }) := by
  refine ⟨?_, ?_, ?_, rfl, ?_⟩
  · unfold isInCooldown
    rcases h : st.cooldowns key with _ | e
    · simp
    · dsimp only
      by_cases he : e = 0
      · subst he
        simp only [if_pos rfl]
        constructor
        · intro hcon; cases hcon
        · rintro ⟨e', he', hlt⟩
          cases he'
          exact absurd hlt (by linarith)
      · rw [if_neg he]
        by_cases hle : now ≥ e
        · rw [if_pos hle]
          constructor
          · intro hcon; cases hcon
          · rintro ⟨e', he', hlt⟩
            cases he'
            exact absurd hlt (by linarith)
        · rw [if_neg hle]
          exact ⟨fun _ => ⟨e, rfl, lt_of_not_ge hle⟩, fun _ => rfl⟩
  · intro e he hpos
    unfold isInCooldown
    rw [he]
    dsimp only
    rw [if_neg (by linarith : e ≠ 0)]
    by_cases hle : now ≥ e
    · rw [if_pos hle, if_pos (by linarith)]
      simp [mapDel]
    · rw [if_neg hle, if_neg (by intro hcon; exact hle hcon)]
      exact he
  · intro k hk
    unfold isInCooldown
    rcases h : st.cooldowns key with _ | e
    · rfl
    · dsimp only
      by_cases he : e = 0
      · subst he; simp
      · rw [if_neg he]
        by_cases hle : now ≥ e
        · rw [if_pos hle]
          simp [mapDel, hk]
        · rw [if_neg hle]
  · intro d ms hd hparse
    unfold setCooldown
    dsimp only
    rw [if_neg hd, hparse]
    rfl

/-- Witness for C5 at a concrete state (entry for "k" expiring at 3, read
at time 5). -/
theorem cooldown_store_spec_witness :
    (0 : ℚ) ≤ 5 ∧
    (((isInCooldown "k" 5
        { cooldowns := fun x => if x = "k" then some 3 else none,
          roundRobinIndex := fun _ => none, metrics := fun _ => none }).1 = true ↔
      ∃ e, (fun x => if x = "k" then some (3 : ℚ) else none) "k" = some e ∧ (5 : ℚ) < e) ∧
     (∀ e, (fun x => if x = "k" then some (3 : ℚ) else none) "k" = some e → 0 < e →
      (isInCooldown "k" 5
        { cooldowns := fun x => if x = "k" then some 3 else none,
          roundRobinIndex := fun _ => none, metrics := fun _ => none }).2.cooldowns "k" =
        if e ≤ 5 then none else some e) ∧
     (∀ k, k ≠ "k" →
      (isInCooldown "k" 5
        { cooldowns := fun x => if x = "k" then some 3 else none,
          roundRobinIndex := fun _ => none, metrics := fun _ => none }).2.cooldowns k =
        (fun x => if x = "k" then some (3 : ℚ) else none) k) ∧
     (setCooldown "k" none 5
        { cooldowns := fun x => if x = "k" then some 3 else none,
          roundRobinIndex := fun _ => none, metrics := fun _ => none } =
       .ok { cooldowns := fun x => if x = "k" then some 3 else none,
             roundRobinIndex := fun _ => none, metrics := fun _ => none }) ∧
     (∀ d ms, d ≠ "" → parseDuration d = .ok ms →
      setCooldown "k" (some d) 5
        { cooldowns := fun x => if x = "k" then some 3 else none,
          roundRobinIndex := fun _ => none, metrics := fun _ => none } =
        .ok { cooldowns := mapSet (fun x => if x = "k" then some 3 else none) "k" (5 + ms),
              roundRobinIndex := fun _ => none, metrics := fun _ => none })) :=
  ⟨by norm_num,
   cooldown_store_spec "k" 5
     { cooldowns := fun x => if x = "k" then some 3 else none,
       roundRobinIndex := fun _ => none, metrics := fun _ => none } (by norm_num)⟩

/-! ### Metrics recording (claim C10) -/

/-- One call to a metrics-recording helper. -/
inductive MetricsOp where
  | success (key : String) (latencyMs : ℚ)
  | failure (key : String)
  | fallback (key : String)

def applyOp (st : RouterState) (op : MetricsOp) : RouterState :=
  match op with
  | .success k l => recordSuccess k l st
  | .failure k => recordFailure k st
  | .fallback k => recordFallback k st

def applyOps (ops : List MetricsOp) (st : RouterState) : RouterState :=
  ops.foldl applyOp st

def MetricsOp.isSuccessFor (key : String) : MetricsOp → Bool
  | .success k _ => k = key
  | _ => false

def MetricsOp.isFailureFor (key : String) : MetricsOp → Bool
  | .failure k => k = key
  | _ => false

def MetricsOp.isFallbackFor (key : String) : MetricsOp → Bool
  | .fallback k => k = key
  | _ => false

def MetricsOp.latFor (key : String) : MetricsOp → ℚ
  | .success k l => if k = key then l else 0
  | _ => 0

def latSum (key : String) (ops : List MetricsOp) : ℚ :=
  (ops.map (MetricsOp.latFor key)).sum

lemma applyOps_view (key : String) :
    ∀ (ops : List MetricsOp) (st : RouterState),
      (mview (applyOps ops st) key).requests
        = (mview st key).requests + ops.countP (MetricsOp.isSuccessFor key)
            + ops.countP (MetricsOp.isFailureFor key) ∧
      (mview (applyOps ops st) key).successes
        = (mview st key).successes + ops.countP (MetricsOp.isSuccessFor key) ∧
      (mview (applyOps ops st) key).failures
        = (mview st key).failures + ops.countP (MetricsOp.isFailureFor key) ∧
      (mview (applyOps ops st) key).fallbacks
        = (mview st key).fallbacks + ops.countP (MetricsOp.isFallbackFor key) ∧
      (mview (applyOps ops st) key).totalLatencyMs
        = (mview st key).totalLatencyMs + latSum key ops := by
  intro ops
  induction ops with
  | nil => intro st; simp [applyOps, latSum]
  | cons op ops ih =>
    intro st
    have hstep : applyOps (op :: ops) st = applyOps ops (applyOp st op) := by
      simp [applyOps]
    rw [hstep]
    obtain ⟨h1, h2, h3, h4, h5⟩ := ih (applyOp st op)
    rcases op with ⟨k, l⟩ | k | k
    · have hv : mview (applyOp st (.success k l)) key =
          if key = k then
            ⟨(mview st key).requests + 1, (mview st key).successes + 1,
             (mview st key).failures, (mview st key).fallbacks,
             (mview st key).totalLatencyMs + l⟩
          else mview st key := by
        by_cases hq : key = k <;> simp [applyOp, recordSuccess, mview, mapSet, hq]
      rw [h1, h2, h3, h4, h5, hv]
      refine ⟨?_, ?_, ?_, ?_, ?_⟩ <;>
        (by_cases hq : key = k
         · simp_all [MetricsOp.isSuccessFor, MetricsOp.isFailureFor,
             MetricsOp.isFallbackFor, MetricsOp.latFor, latSum, List.countP_cons]
           try ring
         · have hq' : ¬(k = key) := fun h => hq h.symm
           simp_all [MetricsOp.isSuccessFor, MetricsOp.isFailureFor,
             MetricsOp.isFallbackFor, MetricsOp.latFor, latSum, List.countP_cons]
           try ring)
    · have hv : mview (applyOp st (.failure k)) key =
          if key = k then
            ⟨(mview st key).requests + 1, (mview st key).successes,
             (mview st key).failures + 1, (mview st key).fallbacks,
             (mview st key).totalLatencyMs⟩
          else mview st key := by
        by_cases hq : key = k <;> simp [applyOp, recordFailure, mview, mapSet, hq]
      rw [h1, h2, h3, h4, h5, hv]
      refine ⟨?_, ?_, ?_, ?_, ?_⟩ <;>
        (by_cases hq : key = k
         · simp_all [MetricsOp.isSuccessFor, MetricsOp.isFailureFor,
             MetricsOp.isFallbackFor, MetricsOp.latFor, latSum, List.countP_cons]
           try ring
         · have hq' : ¬(k = key) := fun h => hq h.symm
           simp_all [MetricsOp.isSuccessFor, MetricsOp.isFailureFor,
             MetricsOp.isFallbackFor, MetricsOp.latFor, latSum, List.countP_cons]
           try ring)
    · have hv : mview (applyOp st (.fallback k)) key =
          if key = k then
            ⟨(mview st key).requests, (mview st key).successes,
             (mview st key).failures, (mview st key).fallbacks + 1,
             (mview st key).totalLatencyMs⟩
          else mview st key := by
        by_cases hq : key = k <;> simp [applyOp, recordFallback, mview, mapSet, hq]
      rw [h1, h2, h3, h4, h5, hv]
      refine ⟨?_, ?_, ?_, ?_, ?_⟩ <;>
        (by_cases hq : key = k
         · simp_all [MetricsOp.isSuccessFor, MetricsOp.isFailureFor,
             MetricsOp.isFallbackFor, MetricsOp.latFor, latSum, List.countP_cons]
           try ring
         · have hq' : ¬(k = key) := fun h => hq h.symm
           simp_all [MetricsOp.isSuccessFor, MetricsOp.isFailureFor,
             MetricsOp.isFallbackFor, MetricsOp.latFor, latSum, List.countP_cons]
           try ring)

/-- Claim C10: in every state reachable from the fresh router state by
`recordSuccess` / `recordFailure` / `recordFallback` calls, every key's
metrics satisfy `requests = successes + failures` and `totalLatencyMs`
equals the sum of the latencies recorded by `recordSuccess` for that key;
`recordFallback` changes only the `fallbacks` counter. -/
theorem metrics_invariant (ops : List MetricsOp) (key : String) :
    (mview (applyOps ops createRouterState) key).requests
      = (mview (applyOps ops createRouterState) key).successes
        + (mview (applyOps ops createRouterState) key).failures ∧
    (mview (applyOps ops createRouterState) key).totalLatencyMs = latSum key ops ∧
    (∀ (st : RouterState) (k q : String),
      ((mview (recordFallback k st) q).requests = (mview st q).requests ∧
       (mview (recordFallback k st) q).successes = (mview st q).successes ∧
       (mview (recordFallback k st) q).failures = (mview st q).failures ∧
       (mview (recordFallback k st) q).totalLatencyMs = (mview st q).totalLatencyMs) ∧
      (mview (recordFallback k st) q).fallbacks
        = (mview st q).fallbacks + (if q = k then 1 else 0)) := by
  obtain ⟨h1, h2, h3, h4, h5⟩ := applyOps_view key ops createRouterState
  have hempty : mview createRouterState key = emptyMetrics := rfl
  refine ⟨?_, ?_, ?_⟩
  · rw [h1, h2, h3, hempty]
    simp [emptyMetrics]
    try ring
  · rw [h5, hempty]
    simp [emptyMetrics]
  · intro st k q
    by_cases hq : q = k <;>
      simp [recordFallback, mview, mapSet, hq]

/-! ## config/schema.ts -/

/-- One element of a `fallback_on` array: an HTTP status code or the
`"any_error"` sentinel. -/
inductive FallbackEntry where
  | code (n : ℕ)
  | anyError
deriving DecidableEq

inductive Strategy where
  | sequential
  | priority
  | round_robin
  | random
  | weighted
deriving DecidableEq

structure TargetModel where
  model : String
  provider : String
  weight : Option ℚ
deriving DecidableEq

inductive BackoffType where
  | exponential
  | linear
  | fixed
deriving DecidableEq

structure Backoff where
  type : BackoffType
  initial : String
  multiplier : Option ℚ
  max : Option String
deriving DecidableEq

inductive OnFail where
  | throw
  | continue_with_next
deriving DecidableEq

structure StrategyProfile where
  max_retries : ℕ
  timeout : Option String
  backoff : Option Backoff
  fallback_on : List FallbackEntry
  on_fail : Option OnFail
  cooldown : Option String
deriving DecidableEq

structure VirtualModelConfig where
  strategy : Strategy
  strategy_profile : Option String
  fallback_on : Option (List FallbackEntry)
  cooldown : Option String
  targets : List TargetModel
deriving DecidableEq

/-! ## router/strategies.ts — selectTargets -/

/-- Insertion into a list driven by a counting comparator: `Ordering.gt`
(the JS comparator returned a positive number) moves the element past the
current head; anything else places it.  Each comparison advances the
draw counter. -/
def insertWith {α : Type} (cmp : ℕ → α → α → Ordering) :
    α → List α → ℕ → List α × ℕ
  | x, [], n => ([x], n)
  | x, y :: ys, n =>
    match cmp n x y with
    | .gt => let r := insertWith cmp x ys (n + 1); (y :: r.1, r.2)
    | _ => (x :: y :: ys, n + 1)

/-- `Array.prototype.sort` with a (possibly inconsistent) comparator,
modelled as insertion sort; see the module docstring. -/
def sortWithCounter {α : Type} (cmp : ℕ → α → α → Ordering) :
    List α → ℕ → List α × ℕ
  | [], n => ([], n)
  | x :: xs, n =>
    let r := sortWithCounter cmp xs n
    insertWith cmp x r.1 r.2

/-- The `() => Math.random() - 0.5` comparator of the `random` strategy. -/
def randCmp {α : Type} (rng : ℕ → ℚ) : ℕ → α → α → Ordering :=
  fun n _ _ => if rng n - 1 / 2 < 0 then .lt else .gt

/-- The `(a, b) => b.score - a.score` comparator used by `weightedSort`
(descending by score). -/
def scoreCmp : ℕ → (TargetModel × ℚ) → (TargetModel × ℚ) → Ordering :=
  fun _ p q => if p.2 < q.2 then .gt else if q.2 < p.2 then .lt else .eq

/-- `weightedSort` from `src/router/strategies.ts`: score each target by
`Math.random() * ((t.weight ?? 1) / totalWeight)` and sort descending by
score. -/
def weightedSort (rng : ℕ → ℚ) (targets : List TargetModel) : List TargetModel :=
  let totalWeight := (targets.map (fun t => t.weight.getD 1)).sum
  let scored := targets.enum.map
    (fun it => (it.2, rng it.1 * (it.2.weight.getD 1 / totalWeight)))
  ((sortWithCounter scoreCmp scored 0).1).map (fun p => p.1)

/-- `selectTargets` from `src/router/strategies.ts`.  Returns the ordered
candidate list together with the updated router state (`round_robin`
advances its per-model cursor; the other strategies leave the state
untouched). -/
def selectTargets (rng : ℕ → ℚ) (virtualModelId : String)
    (config : VirtualModelConfig) (state : RouterState) :
    List TargetModel × RouterState :=
  match config.strategy with
  | .sequential | .priority => (config.targets, state)
  | .round_robin =>
    let idx := (state.roundRobinIndex virtualModelId).getD 0
    let rotated := config.targets.drop idx ++ config.targets.take idx
    let rr := mapSet state.roundRobinIndex virtualModelId
      ((idx + 1) % config.targets.length)
    (rotated, { state with roundRobinIndex := rr })
  | .random => ((sortWithCounter (randCmp rng) config.targets 0).1, state)
  | .weighted => (weightedSort rng config.targets, state)

lemma insertWith_perm {α : Type} (cmp : ℕ → α → α → Ordering) (x : α) :
    ∀ (l : List α) (n : ℕ), (insertWith cmp x l n).1.Perm (x :: l) := by
  intro l
  induction l with
  | nil => intro n; simp [insertWith]
  | cons y ys ih =>
    intro n
    unfold insertWith
    rcases cmp n x y with _ | _ | _
    · exact List.Perm.refl _
    · exact List.Perm.refl _
    · exact ((ih (n + 1)).cons y).trans (List.Perm.swap x y ys)

lemma sortWithCounter_perm {α : Type} (cmp : ℕ → α → α → Ordering) :
    ∀ (l : List α) (n : ℕ), (sortWithCounter cmp l n).1.Perm l := by
  intro l
  induction l with
  | nil => intro n; simp [sortWithCounter]
  | cons x xs ih =>
    intro n
    unfold sortWithCounter
    exact (insertWith_perm cmp x _ _).trans ((ih n).cons x)

lemma enumFrom_map_snd {α : Type} :
    ∀ (n : ℕ) (l : List α), (List.enumFrom n l).map (fun it => it.2) = l := by
  intro n l
  induction l generalizing n with
  | nil => rfl
  | cons x xs ih => simp [List.enumFrom, ih]

lemma weightedSort_perm (rng : ℕ → ℚ) (targets : List TargetModel) :
    (weightedSort rng targets).Perm targets := by
  unfold weightedSort
  have h1 := sortWithCounter_perm scoreCmp
    (targets.enum.map
      (fun it => (it.2, rng it.1 * (it.2.weight.getD 1 /
        (targets.map (fun t => t.weight.getD 1)).sum)))) 0
  have h2 := h1.map (fun p : TargetModel × ℚ => p.1)
  refine h2.trans ?_
  rw [List.map_map]
  have h3 : ((fun p : TargetModel × ℚ => p.1) ∘
      (fun it : ℕ × TargetModel => (it.2, rng it.1 * (it.2.weight.getD 1 /
        (targets.map (fun t => t.weight.getD 1)).sum)))) =
      (fun it : ℕ × TargetModel => it.2) := rfl
  rw [h3, List.enum, enumFrom_map_snd]

/-- Claim C4: for every config with a non-empty target list and every
strategy, `selectTargets` returns a list with exactly the same multiset
of elements as `config.targets` (same length, nothing added, nothing
dropped); the canonical list itself is unmodified (the embedding is
pure: `config` is not part of the returned state, mirroring the spread
copies `[...config.targets]` in the source). -/
theorem selectTargets_multiset (rng : ℕ → ℚ) (mid : String)
    (config : VirtualModelConfig) (st : RouterState)
    (hne : config.targets ≠ []) :
    (selectTargets rng mid config st).1.Perm config.targets := by
  unfold selectTargets
  rcases config.strategy with _ | _ | _ | _ | _
  · exact List.Perm.refl _
  · exact List.Perm.refl _
  · refine (List.perm_append_comm).trans ?_
    rw [List.take_append_drop]
  · exact sortWithCounter_perm _ _ _
  · exact weightedSort_perm _ _

/-- Witness for C4 on a concrete two-target weighted config. -/
theorem selectTargets_multiset_witness :
    (([⟨"a", "p", some 2⟩, ⟨"b", "q", some 1⟩] : List TargetModel) ≠ []) ∧
    (selectTargets (fun _ => 0) "m"
      { strategy := .weighted, strategy_profile := none, fallback_on := none,
        cooldown := none,
        targets := [⟨"a", "p", some 2⟩, ⟨"b", "q", some 1⟩] }
      createRouterState).1.Perm
        [⟨"a", "p", some 2⟩, ⟨"b", "q", some 1⟩] :=
  ⟨by simp,
   selectTargets_multiset (fun _ => 0) "m"
     { strategy := .weighted, strategy_profile := none, fallback_on := none,
       cooldown := none,
       targets := [⟨"a", "p", some 2⟩, ⟨"b", "q", some 1⟩] }
     createRouterState (by simp)⟩

/-! ### Round-robin cursor (claim C2) -/

/-- The router state after `n` successive `selectTargets` calls for the
same virtual model id. -/
def rrIter (rng : ℕ → ℚ) (mid : String) (config : VirtualModelConfig) :
    ℕ → RouterState → RouterState
  | 0, st => st
  | n + 1, st => rrIter rng mid config n (selectTargets rng mid config st).2

/-- The starting index used by the `n`-th successive call (0-based): the
stored cursor read at the beginning of that call. -/
def rrStart (rng : ℕ → ℚ) (mid : String) (config : VirtualModelConfig)
    (n : ℕ) (st : RouterState) : ℕ :=
  ((rrIter rng mid config n st).roundRobinIndex mid).getD 0

/-- The state change a round-robin `selectTargets` call performs. -/
def rrAdvance (mid : String) (config : VirtualModelConfig)
    (st : RouterState) : RouterState :=
  let idx := (st.roundRobinIndex mid).getD 0
  let rr := mapSet st.roundRobinIndex mid ((idx + 1) % config.targets.length)
  { st with roundRobinIndex := rr }

lemma selectTargets_rr (rng : ℕ → ℚ) (mid : String)
    (config : VirtualModelConfig) (st : RouterState)
    (hstrat : config.strategy = .round_robin) :
    selectTargets rng mid config st =
      (config.targets.drop ((st.roundRobinIndex mid).getD 0)
          ++ config.targets.take ((st.roundRobinIndex mid).getD 0),
       rrAdvance mid config st) := by
  unfold selectTargets rrAdvance
  rw [hstrat]

lemma rrStart_formula (rng : ℕ → ℚ) (mid : String)
    (config : VirtualModelConfig) (hstrat : config.strategy = .round_robin)
    (hlen : 0 < config.targets.length) :
    ∀ (n : ℕ) (st : RouterState),
      (st.roundRobinIndex mid).getD 0 < config.targets.length →
      rrStart rng mid config n st
        = (((st.roundRobinIndex mid).getD 0) + n) % config.targets.length := by
  intro n
  induction n with
  | zero =>
    intro st hidx
    simp [rrStart, rrIter, Nat.mod_eq_of_lt hidx]
  | succ n ih =>
    intro st hidx
    have hstep : rrStart rng mid config (n + 1) st
        = rrStart rng mid config n (selectTargets rng mid config st).2 := rfl
    rw [hstep, selectTargets_rr rng mid config st hstrat]
    have hcur : (((rrAdvance mid config st).roundRobinIndex mid).getD 0)
        = (((st.roundRobinIndex mid).getD 0) + 1) % config.targets.length := by
      simp [rrAdvance, mapSet]
    have hlt : (((st.roundRobinIndex mid).getD 0) + 1) % config.targets.length
        < config.targets.length := Nat.mod_lt _ hlen
    rw [ih _ (by rw [hcur]; exact hlt)]
    rw [hcur]
    have hme : ((((st.roundRobinIndex mid).getD 0 + 1) % config.targets.length) + n)
        % config.targets.length
        = ((((st.roundRobinIndex mid).getD 0) + 1) + n) % config.targets.length :=
      (Nat.mod_modEq _ _).add_right n
    rw [hme, show (((st.roundRobinIndex mid).getD 0) + 1) + n
      = ((st.roundRobinIndex mid).getD 0) + (n + 1) by omega]

/-- Claim C2: under the `round_robin` strategy, `selectTargets` returns the
cyclic rotation of `config.targets` beginning at the stored cursor for
that model id (0 when none is stored), stores back `(cursor + 1) mod
length`, touches the cursor of no other model id and nothing else in the
state; and over `length` successive calls the starting positions
`(cursor + n) mod length` are pairwise distinct, so each starting
position is visited exactly once per full cycle. -/
theorem roundRobin_spec (rng : ℕ → ℚ) (mid : String)
    (config : VirtualModelConfig) (st : RouterState) (idx : ℕ)
    (hstrat : config.strategy = .round_robin)
    (hne : config.targets ≠ [])
    (hidxdef : (st.roundRobinIndex mid).getD 0 = idx)
    (hidx : idx < config.targets.length) :
    (selectTargets rng mid config st).1
      = config.targets.drop idx ++ config.targets.take idx ∧
    (selectTargets rng mid config st).2.roundRobinIndex mid
      = some ((idx + 1) % config.targets.length) ∧
    (∀ k, k ≠ mid →
      (selectTargets rng mid config st).2.roundRobinIndex k
        = st.roundRobinIndex k) ∧
    (selectTargets rng mid config st).2.cooldowns = st.cooldowns ∧
    (selectTargets rng mid config st).2.metrics = st.metrics ∧
    (∀ n, rrStart rng mid config n st = (idx + n) % config.targets.length) ∧
    (∀ a b, a < config.targets.length → b < config.targets.length → a ≠ b →
      rrStart rng mid config a st ≠ rrStart rng mid config b st) := by
  have hlen : 0 < config.targets.length := by
    cases h : config.targets with
    | nil => exact absurd h hne
    | cons x xs => simp [h]
  rw [selectTargets_rr rng mid config st hstrat]
  refine ⟨by rw [hidxdef], ?_, ?_, rfl, rfl, ?_, ?_⟩
  · simp [rrAdvance, mapSet, hidxdef]
  · intro k hk
    simp [rrAdvance, mapSet, hk]
  · intro n
    rw [rrStart_formula rng mid config hstrat hlen n st (hidxdef ▸ hidx), hidxdef]
  · intro a b ha hb hab
    rw [rrStart_formula rng mid config hstrat hlen a st (hidxdef ▸ hidx),
      rrStart_formula rng mid config hstrat hlen b st (hidxdef ▸ hidx), hidxdef]
    intro hcon
    have hmod : a ≡ b [MOD config.targets.length] :=
      Nat.ModEq.add_left_cancel' idx hcon
    have : a % config.targets.length = b % config.targets.length := hmod
    rw [Nat.mod_eq_of_lt ha, Nat.mod_eq_of_lt hb] at this
    exact hab this

/-- Witness for C2: two targets, fresh state (no cursor stored). -/
theorem roundRobin_spec_witness :
    (({ strategy := .round_robin, strategy_profile := none,
        fallback_on := none, cooldown := none,
        targets := [⟨"a", "p", none⟩, ⟨"b", "q", none⟩] } :
          VirtualModelConfig).strategy = .round_robin) ∧
    (((createRouterState).roundRobinIndex "m").getD 0 = 0) ∧
    ((selectTargets (fun _ => 0) "m"
      { strategy := .round_robin, strategy_profile := none,
        fallback_on := none, cooldown := none,
        targets := [⟨"a", "p", none⟩, ⟨"b", "q", none⟩] }
      createRouterState).1
        = ([⟨"a", "p", none⟩, ⟨"b", "q", none⟩] : List TargetModel).drop 0
          ++ ([⟨"a", "p", none⟩, ⟨"b", "q", none⟩] : List TargetModel).take 0) ∧
    ((selectTargets (fun _ => 0) "m"
      { strategy := .round_robin, strategy_profile := none,
        fallback_on := none, cooldown := none,
        targets := [⟨"a", "p", none⟩, ⟨"b", "q", none⟩] }
      createRouterState).2.roundRobinIndex "m" = some ((0 + 1) % 2)) := by
  have h := roundRobin_spec (fun _ => 0) "m"
    { strategy := .round_robin, strategy_profile := none,
      fallback_on := none, cooldown := none,
      targets := [⟨"a", "p", none⟩, ⟨"b", "q", none⟩] }
    createRouterState 0 rfl (by simp) rfl (by simp)
  exact ⟨rfl, rfl, h.1, h.2.1⟩

/-! ## router/strategies.ts — executeWithBackoff (claim C3) -/

structure Response where
  status : ℕ
  body : String
deriving DecidableEq

/-- What one invocation of the attempt thunk does: resolve with a
`Response`, or reject (`throw`). -/
inductive AttemptOutcome where
  | resp (r : Response)
  | thrown (err : String)
deriving DecidableEq

/-- `shouldFallbackStatus`: the `"any_error"` sentinel (an exactly
one-element array holding it) matches any status ≥ 400; otherwise exact
membership of the status in the array. -/
def shouldFallbackStatus (status : ℕ) (fallbackOn : List FallbackEntry) : Bool :=
  if fallbackOn.length = 1 ∧ fallbackOn.head? = some .anyError then
    decide (400 ≤ status)
  else fallbackOn.contains (.code status)

structure BackoffResult where
  response : Option Response
  lastStatus : Option ℕ
  lastError : Option String
deriving DecidableEq

/-- The observable trace of one `executeWithBackoff` run: its returned
`BackoffResult`, the sleep durations awaited (in order), and how many
times the attempt thunk was invoked. -/
structure BackoffRun where
  result : BackoffResult
  sleeps : List ℚ
  attemptsUsed : ℕ
deriving DecidableEq

/-- The retry loop of `executeWithBackoff`, with `fuel` = number of
attempts still allowed (`maxRetries + 1` at the top); `i` is the current
attempt index, `delay` the current backoff delay, `ls`/`le` the
`lastStatus`/`lastError` variables and `sleeps` the sleeps so far.
`attempt < maxRetries` in the source corresponds to `0 < fuel - 1`. -/
def backoffGo (fn : ℕ → AttemptOutcome) (fb : List FallbackEntry)
    (mult maxD : ℚ) :
    ℕ → ℕ → ℚ → Option ℕ → Option String → List ℚ → BackoffRun
  | 0, i, _delay, ls, le, sleeps => ⟨⟨none, ls, le⟩, sleeps, i⟩
  | fuel + 1, i, delay, ls, le, sleeps =>
    match fn i with
    | .resp r =>
      if shouldFallbackStatus r.status fb then
        if 0 < fuel then
          backoffGo fn fb mult maxD fuel (i + 1)
            (min (delay * mult) maxD) (some r.status) le (sleeps ++ [delay])
        else ⟨⟨none, some r.status, none⟩, sleeps, i + 1⟩
      else ⟨⟨some r, none, none⟩, sleeps, i + 1⟩
    | .thrown e =>
      if 0 < fuel then
        backoffGo fn fb mult maxD fuel (i + 1)
          (min (delay * mult) maxD) ls (some e) (sleeps ++ [delay])
      else ⟨⟨none, ls, some e⟩, sleeps, i + 1⟩

/-- `executeWithBackoff` from `src/router/strategies.ts`.  `max_retries`
is a required schema field, so `profile.max_retries ?? 0` is the field
itself; the backoff defaults are `initial "500ms"`, `multiplier 2`,
`max "30s"`.  `parseDuration` may throw, hence `Except`. -/
def executeWithBackoff (fn : ℕ → AttemptOutcome) (profile : StrategyProfile)
    (fb : List FallbackEntry) : Except String BackoffRun := do
  let delay0 ← parseDuration ((profile.backoff.map Backoff.initial).getD "500ms")
  let mult := (profile.backoff.bind Backoff.multiplier).getD 2
  let maxD ← parseDuration ((profile.backoff.bind Backoff.max).getD "30s")
  .ok (backoffGo fn fb mult maxD (profile.max_retries + 1) 0 delay0 none none [])

/-- The delay used before the `(j+1)`-th retry: `initial`, then
`min (previous * mult, maxD)` after every retry. -/
def delaySeq (initial mult maxD : ℚ) : ℕ → ℚ
  | 0 => initial
  | j + 1 => min (delaySeq initial mult maxD j * mult) maxD

/-- An outcome that makes the loop retry: a thrown error, or a response
whose status matches the fallback predicate. -/
def isTriggering (fb : List FallbackEntry) : AttemptOutcome → Bool
  | .resp r => shouldFallbackStatus r.status fb
  | .thrown _ => true

lemma backoffGo_attempts_le (fn : ℕ → AttemptOutcome) (fb : List FallbackEntry)
    (mult maxD : ℚ) :
    ∀ (fuel i : ℕ) (delay : ℚ) (ls : Option ℕ) (le : Option String)
      (sleeps : List ℚ),
      (backoffGo fn fb mult maxD fuel i delay ls le sleeps).attemptsUsed
        ≤ i + fuel := by
  intro fuel
  induction fuel with
  | zero => intro i delay ls le sleeps; simp [backoffGo]
  | succ f ih =>
    intro i delay ls le sleeps
    unfold backoffGo
    cases hfn : fn i with
    | resp r =>
      dsimp only
      by_cases ht : shouldFallbackStatus r.status fb
      · rw [if_pos ht]
        by_cases hf : 0 < f
        · rw [if_pos hf]
          calc (backoffGo fn fb mult maxD f (i + 1) (min (delay * mult) maxD)
                (some r.status) le (sleeps ++ [delay])).attemptsUsed
              ≤ (i + 1) + f := ih (i + 1) _ _ _ _
            _ = i + (f + 1) := by omega
        · rw [if_neg hf]
          simp
          try omega
      · rw [if_neg ht]
        simp
        try omega
    | thrown e =>
      dsimp only
      by_cases hf : 0 < f
      · rw [if_pos hf]
        calc (backoffGo fn fb mult maxD f (i + 1) (min (delay * mult) maxD)
              ls (some e) (sleeps ++ [delay])).attemptsUsed
            ≤ (i + 1) + f := ih (i + 1) _ _ _ _
          _ = i + (f + 1) := by omega
      · rw [if_neg hf]
        simp
        try omega

lemma backoffGo_success (fn : ℕ → AttemptOutcome) (fb : List FallbackEntry)
    (mult maxD : ℚ) :
    ∀ (k fuel i : ℕ) (delay : ℚ) (ls : Option ℕ) (le : Option String)
      (sleeps : List ℚ) (r : Response), k < fuel →
      (∀ j, j < k → isTriggering fb (fn (i + j))) →
      fn (i + k) = .resp r → shouldFallbackStatus r.status fb = false →
      (backoffGo fn fb mult maxD fuel i delay ls le sleeps).result
          = ⟨some r, none, none⟩ ∧
      (backoffGo fn fb mult maxD fuel i delay ls le sleeps).attemptsUsed
          = i + k + 1 := by
  intro k
  induction k with
  | zero =>
    intro fuel i delay ls le sleeps r hk htrig hfn hns
    rcases fuel with _ | f
    · omega
    · rw [Nat.add_zero] at hfn
      unfold backoffGo
      rw [hfn]
      dsimp only
      rw [if_neg (by rw [hns]; exact Bool.false_ne_true)]
      exact ⟨rfl, rfl⟩
  | succ k ih =>
    intro fuel i delay ls le sleeps r hk htrig hfn hns
    rcases fuel with _ | f
    · omega
    · have hf : 0 < f := by omega
      have htrig0 := htrig 0 (Nat.succ_pos k)
      rw [Nat.add_zero] at htrig0
      have hshift : ∀ j, j < k → isTriggering fb (fn ((i + 1) + j)) := by
        intro j hj
        have := htrig (j + 1) (by omega)
        rwa [show i + (j + 1) = (i + 1) + j by omega] at this
      have hfn' : fn ((i + 1) + k) = .resp r := by
        rwa [show (i + 1) + k = i + (k + 1) by omega]
      unfold backoffGo
      cases hfn0 : fn i with
      | resp r0 =>
        rw [hfn0] at htrig0
        simp only [isTriggering] at htrig0
        dsimp only
        rw [if_pos htrig0, if_pos hf]
        have := ih f (i + 1) (min (delay * mult) maxD) (some r0.status) le
          (sleeps ++ [delay]) r (by omega) hshift hfn' hns
        exact ⟨this.1, by rw [this.2]; omega⟩
      | thrown e =>
        dsimp only
        rw [if_pos hf]
        have := ih f (i + 1) (min (delay * mult) maxD) ls (some e)
          (sleeps ++ [delay]) r (by omega) hshift hfn' hns
        exact ⟨this.1, by rw [this.2]; omega⟩

lemma backoffGo_sleeps (fn : ℕ → AttemptOutcome) (fb : List FallbackEntry)
    (mult maxD initial : ℚ) (R : ℕ) :
    ∀ (fuel i : ℕ) (delay : ℚ) (ls : Option ℕ) (le : Option String)
      (sleeps : List ℚ),
      fuel + i = R + 1 → 1 ≤ fuel →
      delay = delaySeq initial mult maxD i →
      sleeps = (List.range i).map (delaySeq initial mult maxD) →
      ((backoffGo fn fb mult maxD fuel i delay ls le sleeps).sleeps
        = (List.range
            ((backoffGo fn fb mult maxD fuel i delay ls le sleeps).attemptsUsed
              - 1)).map (delaySeq initial mult maxD)) ∧
      ((backoffGo fn fb mult maxD fuel i delay ls le sleeps).result.response
          = none →
        (backoffGo fn fb mult maxD fuel i delay ls le sleeps).attemptsUsed
            = R + 1 ∧
        ((∃ e, fn R = .thrown e ∧
            (backoffGo fn fb mult maxD fuel i delay ls le sleeps).result.lastError
              = some e) ∨
         (∃ r, fn R = .resp r ∧ shouldFallbackStatus r.status fb = true ∧
            (backoffGo fn fb mult maxD fuel i delay ls le sleeps).result.lastStatus
              = some r.status ∧
            (backoffGo fn fb mult maxD fuel i delay ls le sleeps).result.lastError
              = none))) := by
  intro fuel
  induction fuel with
  | zero =>
    intro i delay ls le sleeps hfi hf hd hs
    exact absurd hf (by omega)
  | succ f ih =>
    intro i delay ls le sleeps hfi hf hd hs
    unfold backoffGo
    cases hfn : fn i with
    | resp r =>
      dsimp only
      by_cases ht : shouldFallbackStatus r.status fb
      · rw [if_pos ht]
        by_cases hff : 0 < f
        · rw [if_pos hff]
          refine ih (i + 1) (min (delay * mult) maxD) (some r.status) le
            (sleeps ++ [delay]) (by omega) (by omega) ?_ ?_
          · rw [hd]; rfl
          · rw [hs, hd, List.range_succ, List.map_append]; rfl
        · rw [if_neg hff]
          have hiR : i = R := by omega
          constructor
          · simp [hs]
          · intro _
            refine ⟨by simp; omega, Or.inr ⟨r, by rw [← hiR]; exact hfn, ht, by simp, by simp⟩⟩
      · rw [if_neg ht]
        constructor
        · simp [hs]
        · intro habs
          simp at habs
    | thrown e =>
      dsimp only
      by_cases hff : 0 < f
      · rw [if_pos hff]
        refine ih (i + 1) (min (delay * mult) maxD) ls (some e)
          (sleeps ++ [delay]) (by omega) (by omega) ?_ ?_
        · rw [hd]; rfl
        · rw [hs, hd, List.range_succ, List.map_append]; rfl
      · rw [if_neg hff]
        have hiR : i = R := by omega
        constructor
        · simp [hs]
        · intro _
          refine ⟨by simp; omega, Or.inl ⟨e, by rw [← hiR]; exact hfn, by simp⟩⟩

lemma delaySeq_closed (initial mult maxD : ℚ) (h0 : 0 ≤ initial)
    (hle : initial ≤ maxD) (hm : 1 ≤ mult) :
    ∀ j, delaySeq initial mult maxD j = min (initial * mult ^ j) maxD := by
  have hD : 0 ≤ maxD := le_trans h0 hle
  intro j
  induction j with
  | zero =>
    simp only [delaySeq, pow_zero, mul_one]
    exact (min_eq_left hle).symm
  | succ j ih =>
    show min (delaySeq initial mult maxD j * mult) maxD = _
    rw [ih]
    rcases le_or_lt (initial * mult ^ j) maxD with hc | hc
    · rw [min_eq_left hc, pow_succ, ← mul_assoc]
    · rw [min_eq_right hc.le]
      have h1 : maxD ≤ maxD * mult := le_mul_of_one_le_right hD hm
      rw [min_eq_right h1]
      have hnn : 0 ≤ initial * mult ^ j :=
        mul_nonneg h0 (pow_nonneg (le_trans zero_le_one hm) j)
      have h2 : initial * mult ^ j ≤ initial * mult ^ (j + 1) := by
        rw [pow_succ, ← mul_assoc]
        exact le_mul_of_one_le_right hnn hm
      rw [min_eq_right (le_trans hc.le h2)]

/-- Claim C3 (amended): `executeWithBackoff` invokes the attempt thunk at
most `max_retries + 1` times; the first attempt whose result does not
match the fallback predicate returns success with that result
immediately; the sleep before the first retry is exactly `initial` and
each later sleep is `min(previous * multiplier, max)` (defaults 500ms, 2
and 30s), which equals `min(initial * multiplier^(k-1), max)` whenever
`0 ≤ initial ≤ max` and `multiplier ≥ 1`; on exhaustion the failure
carries the last triggering status (status-triggered) or the last thrown
error (error-triggered). -/
theorem executeWithBackoff_spec (fn : ℕ → AttemptOutcome)
    (profile : StrategyProfile) (fb : List FallbackEntry) (run : BackoffRun)
    (initial maxD : ℚ)
    (hi : parseDuration ((profile.backoff.map Backoff.initial).getD "500ms")
      = .ok initial)
    (hx : parseDuration ((profile.backoff.bind Backoff.max).getD "30s")
      = .ok maxD)
    (hrun : executeWithBackoff fn profile fb = .ok run) :
    run.attemptsUsed ≤ profile.max_retries + 1 ∧
    (∀ k r, k ≤ profile.max_retries →
      (∀ j, j < k → isTriggering fb (fn j) = true) →
      fn k = .resp r → shouldFallbackStatus r.status fb = false →
      run.result = ⟨some r, none, none⟩ ∧ run.attemptsUsed = k + 1) ∧
    run.sleeps = (List.range (run.attemptsUsed - 1)).map
      (delaySeq initial ((profile.backoff.bind Backoff.multiplier).getD 2) maxD) ∧
    (run.result.response = none →
      run.attemptsUsed = profile.max_retries + 1 ∧
      ((∃ e, fn profile.max_retries = .thrown e ∧
          run.result.lastError = some e) ∨
       (∃ r, fn profile.max_retries = .resp r ∧
         shouldFallbackStatus r.status fb = true ∧
         run.result.lastStatus = some r.status ∧
         run.result.lastError = none))) ∧
    (0 ≤ initial → initial ≤ maxD →
      1 ≤ ((profile.backoff.bind Backoff.multiplier).getD 2) →
      ∀ j, delaySeq initial ((profile.backoff.bind Backoff.multiplier).getD 2)
          maxD j
        = min (initial * ((profile.backoff.bind Backoff.multiplier).getD 2) ^ j)
            maxD) := by
  have hrun' : run = backoffGo fn fb
      ((profile.backoff.bind Backoff.multiplier).getD 2) maxD
      (profile.max_retries + 1) 0 initial none none [] := by
    unfold executeWithBackoff at hrun
    rw [hi, hx] at hrun
    simp only [Bind.bind, Except.bind, Except.ok.injEq] at hrun
    exact hrun.symm
  refine ⟨?_, ?_, ?_, ?_, ?_⟩
  · rw [hrun']
    have := backoffGo_attempts_le fn fb
      ((profile.backoff.bind Backoff.multiplier).getD 2) maxD
      (profile.max_retries + 1) 0 initial none none []
    simpa using this
  · intro k r hk htrig hfn hns
    rw [hrun']
    have := backoffGo_success fn fb
      ((profile.backoff.bind Backoff.multiplier).getD 2) maxD
      k (profile.max_retries + 1) 0 initial none none [] r (by omega)
      (by intro j hj; simpa using htrig j hj) (by simpa using hfn) hns
    exact ⟨this.1, by rw [this.2]; omega⟩
  · rw [hrun']
    exact (backoffGo_sleeps fn fb
      ((profile.backoff.bind Backoff.multiplier).getD 2) maxD initial
      profile.max_retries (profile.max_retries + 1) 0 initial none none []
      (by omega) (by omega) rfl (by simp)).1
  · rw [hrun']
    exact (backoffGo_sleeps fn fb
      ((profile.backoff.bind Backoff.multiplier).getD 2) maxD initial
      profile.max_retries (profile.max_retries + 1) 0 initial none none []
      (by omega) (by omega) rfl (by simp)).2
  · intro h0 hle hm j
    exact delaySeq_closed initial _ maxD h0 hle hm j

lemma parseDuration_500ms : parseDuration "500ms" = .ok 500 := by
  have h := parseDuration_renders "500ms" ⟨['5', '0', '0'], none, ['m', 's']⟩
    (by refine ⟨by decide, by decide, ?_, by decide⟩
        intro f hf; cases hf)
    (by decide)
  rw [h]
  have hm : ((⟨['5', '0', '0'], none, ['m', 's']⟩ : DurShape)).magnitude = 500 := by
    have : digitsVal ['5', '0', '0'] = 500 := by decide
    simp [DurShape.magnitude, this]
  have hf : ((⟨['5', '0', '0'], none, ['m', 's']⟩ : DurShape)).factor = 1 := by
    simp [DurShape.factor]
  rw [hm, hf]
  norm_num

lemma parseDuration_30s : parseDuration "30s" = .ok 30000 := by
  have h := parseDuration_renders "30s" ⟨['3', '0'], none, ['s']⟩
    (by refine ⟨by decide, by decide, ?_, by decide⟩
        intro f hf; cases hf)
    (by decide)
  rw [h]
  have hm : ((⟨['3', '0'], none, ['s']⟩ : DurShape)).magnitude = 30 := by
    have : digitsVal ['3', '0'] = 30 := by decide
    simp [DurShape.magnitude, this]
  have hf : ((⟨['3', '0'], none, ['s']⟩ : DurShape)).factor = 1000 := by
    simp [DurShape.factor]
  rw [hm, hf]
  norm_num

lemma parseDuration_60s : parseDuration "60s" = .ok 60000 := by
  have h := parseDuration_renders "60s" ⟨['6', '0'], none, ['s']⟩
    (by refine ⟨by decide, by decide, ?_, by decide⟩
        intro f hf; cases hf)
    (by decide)
  rw [h]
  have hm : ((⟨['6', '0'], none, ['s']⟩ : DurShape)).magnitude = 60 := by
    have : digitsVal ['6', '0'] = 60 := by decide
    simp [DurShape.magnitude, this]
  have hf : ((⟨['6', '0'], none, ['s']⟩ : DurShape)).factor = 1000 := by
    simp [DurShape.factor]
  rw [hm, hf]
  norm_num

/-- Witness for C3 at a concrete profile (no backoff spec, 0 retries) and
an attempt that immediately returns a non-triggering 200. -/
theorem executeWithBackoff_spec_witness :
    parseDuration "500ms" = .ok 500 ∧
    parseDuration "30s" = .ok 30000 ∧
    executeWithBackoff (fun _ => .resp ⟨200, "ok"⟩)
      { max_retries := 0, timeout := none, backoff := none,
        fallback_on := [.code 429], on_fail := none, cooldown := none }
      [.code 429] = .ok ⟨⟨some ⟨200, "ok"⟩, none, none⟩, [], 1⟩ ∧
    (⟨⟨some ⟨200, "ok"⟩, none, none⟩, [], 1⟩ : BackoffRun).attemptsUsed ≤ 0 + 1 := by
  have h3 : executeWithBackoff (fun _ => .resp ⟨200, "ok"⟩)
      { max_retries := 0, timeout := none, backoff := none,
        fallback_on := [.code 429], on_fail := none, cooldown := none }
      [.code 429] = .ok ⟨⟨some ⟨200, "ok"⟩, none, none⟩, [], 1⟩ := by
    unfold executeWithBackoff
    rw [show ((Option.map Backoff.initial
      (none : Option Backoff)).getD "500ms") = "500ms" from rfl]
    rw [show (((none : Option Backoff).bind Backoff.max).getD "30s") = "30s" from rfl]
    rw [parseDuration_500ms, parseDuration_30s]
    simp only [Bind.bind, Except.bind]
    unfold backoffGo
    norm_num [shouldFallbackStatus]
  exact ⟨parseDuration_500ms, parseDuration_30s, h3,
    (executeWithBackoff_spec (fun _ => .resp ⟨200, "ok"⟩)
      { max_retries := 0, timeout := none, backoff := none,
        fallback_on := [.code 429], on_fail := none, cooldown := none }
      [.code 429] ⟨⟨some ⟨200, "ok"⟩, none, none⟩, [], 1⟩ 500 30000
      parseDuration_500ms parseDuration_30s h3).1⟩

/-- Counterexample for C3 as stated: with `initial = "60s"` and
`max = "30s"` the sleep before the first retry is the uncapped 60000 ms,
not `min(initial * multiplier^0, max) = 30000` — the cap is applied only
after a multiplication, never to the initial delay. -/
theorem backoff_delay_counterexample :
    executeWithBackoff (fun _ => .resp ⟨429, "x"⟩)
      { max_retries := 1, timeout := none,
        backoff := some { type := .exponential, initial := "60s",
                          multiplier := none, max := some "30s" },
        fallback_on := [.code 429], on_fail := none, cooldown := none }
      [.code 429]
      = .ok ⟨⟨none, some 429, none⟩, [60000], 2⟩ ∧
    ¬ ((60000 : ℚ) = min ((60000 : ℚ) * 2 ^ (0 : ℕ)) 30000) := by
  constructor
  · unfold executeWithBackoff
    rw [show ((Option.map Backoff.initial
      (some (⟨.exponential, "60s", none, some "30s"⟩ : Backoff))).getD "500ms")
        = "60s" from rfl]
    rw [show (((some (⟨.exponential, "60s", none, some "30s"⟩ : Backoff)).bind
      Backoff.max).getD "30s") = "30s" from rfl]
    rw [parseDuration_60s, parseDuration_30s]
    simp only [Bind.bind, Except.bind]
    unfold backoffGo
    norm_num [shouldFallbackStatus]
    unfold backoffGo
    norm_num [shouldFallbackStatus]
  · norm_num [min_def]

/-! ## config/strategies.ts (claim C6) -/

/-- The merged result of a `VirtualModelConfig` and its strategy profile
(`ResolvedModelConfig` in `src/config/schema.ts`).  Note the schema has
no model-level `max_retries` field at all. -/
structure ResolvedModelConfig where
  fallback_on : List FallbackEntry
  cooldown : Option String
  max_retries : ℕ
  backoff : Option Backoff
  on_fail : OnFail
deriving DecidableEq

/-- `resolveProfile` from `src/config/strategies.ts`. -/
def resolveProfile (model : VirtualModelConfig)
    (profiles : String → Option StrategyProfile) : Option StrategyProfile :=
  match model.strategy_profile with
  | none => none
  | some name => profiles name

/-- `mergeWithProfile` from `src/config/strategies.ts`, written with the
same `??` fallback chains as the source. -/
def mergeWithProfile (modelConfig : VirtualModelConfig)
    (profile : Option StrategyProfile) : ResolvedModelConfig :=
  { fallback_on := ((modelConfig.fallback_on).orElse
      (fun _ => profile.map StrategyProfile.fallback_on)).getD
        [.code 429, .code 500, .code 503],
    cooldown := (modelConfig.cooldown).orElse
      (fun _ => profile.bind StrategyProfile.cooldown),
    max_retries := (profile.map StrategyProfile.max_retries).getD 0,
    backoff := profile.bind StrategyProfile.backoff,
    on_fail := (profile.bind StrategyProfile.on_fail).getD .continue_with_next }

/-- Claim C6: the merged policy takes the fallback trigger set from the
model if present, else from the profile if present, else exactly
{429, 500, 503}; cooldown from model else profile with no default;
max_retries from the profile only (default 0 — the schema gives the
model no such field); backoff from the profile only; on-failure policy
from the profile, defaulting to continue_with_next. -/
theorem mergeWithProfile_spec (model : VirtualModelConfig)
    (profile : Option StrategyProfile) :
    ((mergeWithProfile model profile).fallback_on =
      match model.fallback_on, profile with
      | some f, _ => f
      | none, some p => p.fallback_on
      | none, none => [.code 429, .code 500, .code 503]) ∧
    ((mergeWithProfile model profile).cooldown =
      match model.cooldown, profile with
      | some c, _ => some c
      | none, some p => p.cooldown
      | none, none => none) ∧
    ((mergeWithProfile model profile).max_retries =
      match profile with
      | some p => p.max_retries
      | none => 0) ∧
    ((mergeWithProfile model profile).backoff =
      match profile with
      | some p => p.backoff
      | none => none) ∧
    ((mergeWithProfile model profile).on_fail =
      match profile with
      | some p => p.on_fail.getD .continue_with_next
      | none => .continue_with_next) := by
  rcases hf : model.fallback_on with _ | f <;>
    rcases hc : model.cooldown with _ | c <;>
    rcases profile with _ | p <;>
    simp [mergeWithProfile, hf, hc, Option.orElse, Option.bind, Option.getD]

/-! ## config/loader.ts (claim C7) -/

/-- A target as it appears in the raw JSON document: any field may be
missing (or empty, which the `!x` falsiness checks treat alike). -/
structure RawTarget where
  model : Option String
  provider : Option String
  weight : Option ℚ
deriving DecidableEq

/-- A virtual-model entry of the raw document. -/
structure RawModel where
  strategy : Option Strategy
  strategy_profile : Option String
  fallback_on : Option (List FallbackEntry)
  cooldown : Option String
  targets : Option (List RawTarget)
deriving DecidableEq

/-- A loaded virtual model: the raw entry with its strategy defaulted
(`model.strategy = "sequential"` mutation in the source). -/
structure LoadedModel where
  strategy : Strategy
  strategy_profile : Option String
  fallback_on : Option (List FallbackEntry)
  cooldown : Option String
  targets : List RawTarget
deriving DecidableEq

structure RawConfig where
  models : List (String × RawModel)
  strategies : List (String × StrategyProfile)
deriving DecidableEq

structure LoadedConfig where
  virtualModels : List (String × LoadedModel)
  strategyProfiles : List (String × StrategyProfile)
deriving DecidableEq

/-- `strategyProfiles.has` / `.get`, on the association list built from
the document's `strategies` object. -/
def profilesLookup (ps : List (String × StrategyProfile)) (name : String) :
    Option StrategyProfile :=
  (ps.find? (fun q => q.1 = name)).map Prod.snd

/-- JS falsiness for an optional string field: missing or empty. -/
def strFalsy : Option String → Bool
  | none => true
  | some s => s.isEmpty

/-- The model-loading loop of `loadConfig`: a model with an absent or
empty target list is skipped with a warning; a reference to an unknown
strategy profile gets a warning but the model is still registered (as
`virtual/<name>`, with the strategy defaulted to `sequential`). -/
def profileWarning (strategyProfiles : List (String × StrategyProfile))
    (name : String) : Option String → List String
  | some pn =>
    if (profilesLookup strategyProfiles pn).isNone then
      ["Strategy profile \"" ++ pn ++ "\" not found for model \""
        ++ name ++ "\""]
    else []
  | none => []

def loadModels (strategyProfiles : List (String × StrategyProfile)) :
    List (String × RawModel) → List (String × LoadedModel) × List String
  | [] => ([], [])
  | nm :: rest =>
    match nm.2.targets with
    | none =>
      ((loadModels strategyProfiles rest).1,
       ("Virtual model \"" ++ nm.1 ++ "\" has no targets, skipping")
         :: (loadModels strategyProfiles rest).2)
    | some ts =>
      if ts.isEmpty then
        ((loadModels strategyProfiles rest).1,
         ("Virtual model \"" ++ nm.1 ++ "\" has no targets, skipping")
           :: (loadModels strategyProfiles rest).2)
      else
        ((("virtual/" ++ nm.1),
          (⟨nm.2.strategy.getD .sequential, nm.2.strategy_profile,
            nm.2.fallback_on, nm.2.cooldown, ts⟩ : LoadedModel))
            :: (loadModels strategyProfiles rest).1,
         profileWarning strategyProfiles nm.1 nm.2.strategy_profile
           ++ (loadModels strategyProfiles rest).2)

/-- `loadConfig` from `src/config/loader.ts` (console warnings are
returned as a list instead of printed). -/
def loadConfig (raw : RawConfig) : LoadedConfig × List String :=
  let r := loadModels raw.strategies raw.models
  (⟨r.1, raw.strategies⟩, r.2)

/-- `validateConfig` from `src/config/loader.ts`: collects error strings;
it returns only strings and leaves the loaded configuration untouched. -/
def validateModels : List (String × LoadedModel) → List String
  | [] => []
  | p :: rest =>
    (p.2.targets.filterMap (fun t =>
      if strFalsy t.model || strFalsy t.provider then
        some ("Model \"" ++ p.1 ++ "\" has target missing model or provider field")
      else none))
    ++ (if p.2.strategy = .weighted ∧
          ¬ (p.2.targets.all (fun t => t.weight.isSome)) then
        ["Model \"" ++ p.1 ++ "\" uses weighted strategy but not all targets have weights"]
      else [])
    ++ validateModels rest

def validateConfig (config : LoadedConfig) : List String :=
  validateModels config.virtualModels

lemma loadModels_fst (sp : List (String × StrategyProfile)) :
    ∀ ms : List (String × RawModel),
      (loadModels sp ms).1 = ms.filterMap (fun nm =>
        match nm.2.targets with
        | none => none
        | some ts =>
          if ts.isEmpty then none
          else some ("virtual/" ++ nm.1,
            (⟨nm.2.strategy.getD .sequential, nm.2.strategy_profile,
              nm.2.fallback_on, nm.2.cooldown, ts⟩ : LoadedModel))) := by
  intro ms
  induction ms with
  | nil => rfl
  | cons nm rest ih =>
    unfold loadModels
    rcases ht : nm.2.targets with _ | ts
    · simp only [List.filterMap_cons, ht]
      exact ih
    · by_cases he : ts.isEmpty
      · simp only [List.filterMap_cons, ht, he, if_true]
        simpa [he] using ih
      · simp only [List.filterMap_cons, ht]
        rw [if_neg he]
        simp only [List.filterMap_cons, ht] at ih ⊢
        simp [he, ih]

lemma loadModels_warn_empty (sp : List (String × StrategyProfile)) :
    ∀ (ms : List (String × RawModel)) (nm : String × RawModel), nm ∈ ms →
      (nm.2.targets = none ∨ nm.2.targets = some []) →
      ("Virtual model \"" ++ nm.1 ++ "\" has no targets, skipping")
        ∈ (loadModels sp ms).2 := by
  intro ms
  induction ms with
  | nil => intro nm h; cases h
  | cons hd rest ih =>
    intro nm hmem hbad
    rcases List.mem_cons.mp hmem with heq | htail
    · subst heq
      unfold loadModels
      rcases hbad with hb | hb <;> rw [hb] <;> simp
    · have hrec := ih nm htail hbad
      unfold loadModels
      rcases ht : hd.2.targets with _ | ts
      · simpa using Or.inr hrec
      · dsimp only
        by_cases he : ts.isEmpty
        · rw [if_pos he]
          simpa using Or.inr hrec
        · rw [if_neg he]
          simp only [List.mem_append]
          exact Or.inr hrec

lemma loadModels_warn_profile (sp : List (String × StrategyProfile)) :
    ∀ (ms : List (String × RawModel)) (nm : String × RawModel)
      (pn : String) (ts : List RawTarget), nm ∈ ms →
      nm.2.strategy_profile = some pn → nm.2.targets = some ts → ts ≠ [] →
      profilesLookup sp pn = none →
      ("Strategy profile \"" ++ pn ++ "\" not found for model \""
        ++ nm.1 ++ "\"") ∈ (loadModels sp ms).2 := by
  intro ms
  induction ms with
  | nil => intro nm pn ts h; cases h
  | cons hd rest ih =>
    intro nm pn ts hmem hsp ht hne hlook
    rcases List.mem_cons.mp hmem with heq | htail
    · subst heq
      unfold loadModels
      rw [ht]
      dsimp only
      rw [if_neg (by simpa [List.isEmpty_iff] using hne)]
      have hw : profileWarning sp nm.1 nm.2.strategy_profile
          = ["Strategy profile \"" ++ pn ++ "\" not found for model \""
              ++ nm.1 ++ "\""] := by
        rw [hsp]
        simp [profileWarning, hlook]
      rw [hw]
      simp
    · have hrec := ih nm pn ts htail hsp ht hne hlook
      unfold loadModels
      rcases ht2 : hd.2.targets with _ | ts2
      · simpa using Or.inr hrec
      · by_cases he : ts2.isEmpty
        · simp only [he, if_true]
          simpa using Or.inr hrec
        · simp only [he, Bool.false_eq_true, if_false, List.mem_append]
          exact Or.inr hrec

lemma validateModels_mem_field :
    ∀ (ps : List (String × LoadedModel)) (p : String × LoadedModel)
      (t : RawTarget), p ∈ ps → t ∈ p.2.targets →
      (strFalsy t.model || strFalsy t.provider) = true →
      ("Model \"" ++ p.1 ++ "\" has target missing model or provider field")
        ∈ validateModels ps := by
  intro ps
  induction ps with
  | nil => intro p t h; cases h
  | cons hd rest ih =>
    intro p t hmem htmem hcond
    rcases List.mem_cons.mp hmem with heq | htail
    · subst heq
      unfold validateModels
      refine List.mem_append_left _ (List.mem_append_left _ ?_)
      exact List.mem_filterMap.mpr ⟨t, htmem, by rw [hcond]; rfl⟩
    · unfold validateModels
      exact List.mem_append_right _ (ih p t htail htmem hcond)

lemma validateModels_mem_weighted :
    ∀ (ps : List (String × LoadedModel)) (p : String × LoadedModel),
      p ∈ ps → p.2.strategy = .weighted →
      ¬ (p.2.targets.all (fun t => t.weight.isSome) = true) →
      ("Model \"" ++ p.1 ++ "\" uses weighted strategy but not all targets have weights")
        ∈ validateModels ps := by
  intro ps
  induction ps with
  | nil => intro p h; cases h
  | cons hd rest ih =>
    intro p hmem hw hnall
    rcases List.mem_cons.mp hmem with heq | htail
    · subst heq
      unfold validateModels
      refine List.mem_append_left _ (List.mem_append_right _ ?_)
      rw [if_pos ⟨hw, hnall⟩]
      simp
    · unfold validateModels
      exact List.mem_append_right _ (ih p htail hw hnall)

/-- Claim C7 (amended): `loadConfig` keeps exactly the models whose target
list is present and non-empty (strategy defaulted to `sequential`) —
load is per-entry, never all-or-nothing; absent/empty target lists are
excluded with a collected warning; an unknown strategy-profile reference
produces a collected warning but the model is NOT excluded; targets
missing model/provider and missing weights under the weighted strategy
produce collected `validateConfig` error strings, and `validateConfig`
returns only strings — it cannot exclude anything. -/
theorem loadConfig_spec (raw : RawConfig) :
    ((loadConfig raw).1.virtualModels =
      raw.models.filterMap (fun nm =>
        match nm.2.targets with
        | none => none
        | some ts =>
          if ts.isEmpty then none
          else some ("virtual/" ++ nm.1,
            (⟨nm.2.strategy.getD .sequential, nm.2.strategy_profile,
              nm.2.fallback_on, nm.2.cooldown, ts⟩ : LoadedModel)))) ∧
    (∀ nm ∈ raw.models, (nm.2.targets = none ∨ nm.2.targets = some []) →
      ("Virtual model \"" ++ nm.1 ++ "\" has no targets, skipping")
        ∈ (loadConfig raw).2) ∧
    (∀ nm ∈ raw.models, ∀ pn ts, nm.2.strategy_profile = some pn →
      nm.2.targets = some ts → ts ≠ [] →
      profilesLookup raw.strategies pn = none →
      ("Strategy profile \"" ++ pn ++ "\" not found for model \""
        ++ nm.1 ++ "\"") ∈ (loadConfig raw).2) ∧
    (∀ p ∈ (loadConfig raw).1.virtualModels, ∀ t ∈ p.2.targets,
      (strFalsy t.model || strFalsy t.provider) = true →
      ("Model \"" ++ p.1 ++ "\" has target missing model or provider field")
        ∈ validateConfig (loadConfig raw).1) ∧
    (∀ p ∈ (loadConfig raw).1.virtualModels, p.2.strategy = .weighted →
      ¬ (p.2.targets.all (fun t => t.weight.isSome) = true) →
      ("Model \"" ++ p.1 ++ "\" uses weighted strategy but not all targets have weights")
        ∈ validateConfig (loadConfig raw).1) :=
  ⟨loadModels_fst raw.strategies raw.models,
   fun nm hm hb => loadModels_warn_empty raw.strategies raw.models nm hm hb,
   fun nm hm pn ts h1 h2 h3 h4 =>
     loadModels_warn_profile raw.strategies raw.models nm pn ts hm h1 h2 h3 h4,
   fun p hp t ht hc => validateModels_mem_field _ p t hp ht hc,
   fun p hp hw hn => validateModels_mem_weighted _ p hp hw hn⟩

/-- Witness for C7: a document with one valid model and one whose target
list is empty; the valid one is loaded, the empty one is excluded with
its warning. -/
theorem loadConfig_spec_witness :
    (("bad", (⟨none, none, none, none, some []⟩ : RawModel)) ∈
      ([("good", (⟨none, none, none, none,
          some [⟨some "x", some "p", none⟩]⟩ : RawModel)),
        ("bad", (⟨none, none, none, none, some []⟩ : RawModel))] :
        List (String × RawModel))) ∧
    (("Virtual model \"bad\" has no targets, skipping")
      ∈ (loadConfig ⟨[("good", ⟨none, none, none, none,
          some [⟨some "x", some "p", none⟩]⟩),
         ("bad", ⟨none, none, none, none, some []⟩)], []⟩).2) := by
  refine ⟨by simp, ?_⟩
  exact (loadConfig_spec ⟨[("good", ⟨none, none, none, none,
      some [⟨some "x", some "p", none⟩]⟩),
    ("bad", ⟨none, none, none, none, some []⟩)], []⟩).2.1
    ("bad", ⟨none, none, none, none, some []⟩) (by simp) (Or.inr rfl)

/-- Counterexample for C7 as stated: a model referencing the unknown
strategy profile "nope" is warned about but remains in the loaded
configuration — it is not "individually rejected" as the claim says. -/
theorem loadConfig_counterexample :
    ((loadConfig ⟨[("m", ⟨none, some "nope", none, none,
        some [⟨some "x", some "p", none⟩]⟩)], []⟩).1.virtualModels.map Prod.fst
      = ["virtual/m"]) ∧
    ((loadConfig ⟨[("m", ⟨none, some "nope", none, none,
        some [⟨some "x", some "p", none⟩]⟩)], []⟩).2
      = ["Strategy profile \"nope\" not found for model \"m\""]) := by
  constructor <;> rfl

/-! ## router/resolver.ts (claim C9) -/

/-- `normalizeModelID` from `src/router/resolver.ts` (the identical helper
also appears in `src/index.ts`): strip the provider prefix from the model
id if present — `modelID.startsWith(prefix) ? modelID.slice(prefix.length)
: modelID`. -/
def normalizeModelID (providerID modelID : String) : String :=
  if ((providerID ++ "/").data).isPrefixOf modelID.data then
    ⟨modelID.data.drop (providerID ++ "/").length⟩
  else modelID

structure ResolvedTarget where
  providerID : String
  modelID : String
  allTargets : List (String × String)
deriving DecidableEq

/-- The cooldown-skipping walk of `resolveModel`, threading the state
through `isInCooldown`'s lazy deletions. -/
def cooldownWalk (now : ℚ) :
    List TargetModel → RouterState → Option (String × String) × RouterState
  | [], st => (none, st)
  | t :: ts, st =>
    if (isInCooldown (t.provider ++ "/" ++ normalizeModelID t.provider t.model)
        now st).1 then
      cooldownWalk now ts
        (isInCooldown (t.provider ++ "/" ++ normalizeModelID t.provider t.model)
          now st).2
    else
      (some (t.provider, normalizeModelID t.provider t.model),
       (isInCooldown (t.provider ++ "/" ++ normalizeModelID t.provider t.model)
         now st).2)

/-- `resolveModel` from `src/router/resolver.ts`. -/
def resolveModel (rng : ℕ → ℚ) (now : ℚ) (virtualModelID : String)
    (virtualModels : String → Option VirtualModelConfig)
    (strategyProfiles : String → Option StrategyProfile)
    (state : RouterState) : Option ResolvedTarget × RouterState :=
  match virtualModels virtualModelID with
  | none => (none, state)
  | some config =>
    -- mergeWithProfile(resolveProfile ...) is computed and discarded in the
    -- source ("side-effect free here"); it does not influence the result
    match cooldownWalk now (selectTargets rng virtualModelID config state).1
        (selectTargets rng virtualModelID config state).2 with
    | (some pm, st') =>
      (some ⟨pm.1, pm.2,
        (selectTargets rng virtualModelID config state).1.map
          (fun t => (t.provider, normalizeModelID t.provider t.model))⟩, st')
    | (none, st') => (none, st')

lemma normalizeModelID_strip (p m : String) (rest : List Char)
    (h : m.data = (p ++ "/").data ++ rest) :
    (normalizeModelID p m).data = rest := by
  unfold normalizeModelID
  rw [h]
  rw [if_pos (by rw [List.isPrefixOf_iff_prefix]; exact List.prefix_append _ _)]
  show ((p ++ "/").data ++ rest).drop (p ++ "/").length = rest
  exact List.drop_left _ _

lemma normalizeModelID_keep (p m : String)
    (h : ¬ ((p ++ "/").data.isPrefixOf m.data = true)) :
    normalizeModelID p m = m := by
  unfold normalizeModelID
  rw [if_neg h]

/-- If the configured model id does not begin with a doubled provider
prefix, the normalised id does not begin with the prefix at all. -/
lemma normalizeModelID_no_pre (p m : String)
    (h : ¬ ((((p ++ "/") ++ (p ++ "/")).data).isPrefixOf m.data = true)) :
    ¬ ((p ++ "/").data.isPrefixOf (normalizeModelID p m).data = true) := by
  by_cases h1 : (p ++ "/").data.isPrefixOf m.data = true
  · rw [List.isPrefixOf_iff_prefix] at h1
    obtain ⟨rest, hrest⟩ := h1
    rw [normalizeModelID_strip p m rest hrest.symm]
    intro h2
    rw [List.isPrefixOf_iff_prefix] at h2
    obtain ⟨rest2, hrest2⟩ := h2
    apply h
    rw [List.isPrefixOf_iff_prefix, String.data_append, ← hrest, ← hrest2]
    exact ⟨rest2, by simp⟩
  · rw [normalizeModelID_keep p m h1]
    exact h1

lemma cooldownWalk_mem (now : ℚ) :
    ∀ (ts : List TargetModel) (st : RouterState) (pm : String × String),
      (cooldownWalk now ts st).1 = some pm →
      ∃ t ∈ ts, pm = (t.provider, normalizeModelID t.provider t.model) := by
  intro ts
  induction ts with
  | nil => intro st pm h; simp [cooldownWalk] at h
  | cons t rest ih =>
    intro st pm h
    unfold cooldownWalk at h
    by_cases hc : (isInCooldown
        (t.provider ++ "/" ++ normalizeModelID t.provider t.model) now st).1 = true
    · rw [if_pos hc] at h
      obtain ⟨t', ht', hpm⟩ := ih _ pm h
      exact ⟨t', List.mem_cons_of_mem t ht', hpm⟩
    · rw [if_neg hc] at h
      simp only [Option.some.injEq] at h
      exact ⟨t, List.mem_cons_self t rest, h.symm⟩

/-- Claim C9 (amended): every candidate emitted by `resolveModel` carries
the model id `normalizeModelID provider model` of a target of the
selected list; if the configured model id begins with `"<provider>/"`,
exactly one copy of that prefix is removed, and the emitted id is free
of the prefix whenever the configured id does not repeat it — but when
the prefix occurs twice, one stripping leaves an id that still begins
with the prefix. -/
theorem resolveModel_normalize_spec (rng : ℕ → ℚ) (now : ℚ)
    (virtualModelID : String)
    (virtualModels : String → Option VirtualModelConfig)
    (strategyProfiles : String → Option StrategyProfile)
    (state : RouterState) (rt : ResolvedTarget) (st' : RouterState)
    (hres : resolveModel rng now virtualModelID virtualModels strategyProfiles
      state = (some rt, st')) :
    (∀ config, virtualModels virtualModelID = some config →
      ((∃ t ∈ (selectTargets rng virtualModelID config state).1,
          rt.providerID = t.provider ∧
          rt.modelID = normalizeModelID t.provider t.model) ∧
       rt.allTargets = (selectTargets rng virtualModelID config state).1.map
         (fun t => (t.provider, normalizeModelID t.provider t.model)))) ∧
    (∀ p m rest, (m : String).data = (p ++ "/").data ++ rest →
      (normalizeModelID p m).data = rest) ∧
    (∀ p m, ¬ ((((p ++ "/") ++ (p ++ "/")).data).isPrefixOf m.data = true) →
      ¬ ((p ++ "/").data.isPrefixOf (normalizeModelID p m).data = true)) := by
  refine ⟨?_, fun p m rest h => normalizeModelID_strip p m rest h,
    fun p m h => normalizeModelID_no_pre p m h⟩
  intro config hconfig
  unfold resolveModel at hres
  rw [hconfig] at hres
  dsimp only at hres
  rcases hwalk : (cooldownWalk now
      (selectTargets rng virtualModelID config state).1
      (selectTargets rng virtualModelID config state).2).1 with _ | pm
  · rw [show (cooldownWalk now (selectTargets rng virtualModelID config state).1
        (selectTargets rng virtualModelID config state).2)
        = (none, (cooldownWalk now
          (selectTargets rng virtualModelID config state).1
          (selectTargets rng virtualModelID config state).2).2) from
      Prod.ext hwalk rfl] at hres
    simp at hres
  · rw [show (cooldownWalk now (selectTargets rng virtualModelID config state).1
        (selectTargets rng virtualModelID config state).2)
        = (some pm, (cooldownWalk now
          (selectTargets rng virtualModelID config state).1
          (selectTargets rng virtualModelID config state).2).2) from
      Prod.ext hwalk rfl] at hres
    simp only [Prod.mk.injEq, Option.some.injEq] at hres
    obtain ⟨t, hmem, hpm⟩ := cooldownWalk_mem now _ _ pm hwalk
    refine ⟨⟨t, hmem, ?_, ?_⟩, ?_⟩
    · rw [← hres.1, hpm]
    · rw [← hres.1, hpm]
    · rw [← hres.1]

/-- Witness for C9: one target with a single provider prefix; the emitted
id is the bare model id. -/
theorem resolveModel_normalize_spec_witness :
    (resolveModel (fun _ => 0) 0 "virtual/t"
      (fun k => if k = "virtual/t" then
        some ⟨.sequential, none, none, none,
          [⟨"openrouter/gpt-4o", "openrouter", none⟩]⟩ else none)
      (fun _ => none) createRouterState).1
      = some ⟨"openrouter", "gpt-4o", [("openrouter", "gpt-4o")]⟩ ∧
    (∀ config, (fun k => if k = "virtual/t" then
        some (⟨.sequential, none, none, none,
          [⟨"openrouter/gpt-4o", "openrouter", none⟩]⟩ : VirtualModelConfig)
        else none) "virtual/t" = some config →
      ((∃ t ∈ (selectTargets (fun _ => (0 : ℚ)) "virtual/t" config
            createRouterState).1,
          (⟨"openrouter", "gpt-4o", [("openrouter", "gpt-4o")]⟩ :
            ResolvedTarget).providerID = t.provider ∧
          (⟨"openrouter", "gpt-4o", [("openrouter", "gpt-4o")]⟩ :
            ResolvedTarget).modelID = normalizeModelID t.provider t.model) ∧
       (⟨"openrouter", "gpt-4o", [("openrouter", "gpt-4o")]⟩ :
          ResolvedTarget).allTargets
         = (selectTargets (fun _ => (0 : ℚ)) "virtual/t" config
            createRouterState).1.map
           (fun t => (t.provider, normalizeModelID t.provider t.model)))) := by
  have hres : (resolveModel (fun _ => 0) 0 "virtual/t"
      (fun k => if k = "virtual/t" then
        some ⟨.sequential, none, none, none,
          [⟨"openrouter/gpt-4o", "openrouter", none⟩]⟩ else none)
      (fun _ => none) createRouterState)
      = (some ⟨"openrouter", "gpt-4o", [("openrouter", "gpt-4o")]⟩,
         createRouterState) := by
    rfl
  refine ⟨by rw [hres], ?_⟩
  exact ((resolveModel_normalize_spec (fun _ => 0) 0 "virtual/t"
    (fun k => if k = "virtual/t" then
      some ⟨.sequential, none, none, none,
        [⟨"openrouter/gpt-4o", "openrouter", none⟩]⟩ else none)
    (fun _ => none) createRouterState
    ⟨"openrouter", "gpt-4o", [("openrouter", "gpt-4o")]⟩
    createRouterState hres).1)

/-- Counterexample for C9 as stated: with the configured model id
"anthropic/anthropic/claude" under provider "anthropic", the emitted id
is "anthropic/claude", which still begins with the provider prefix —
the prefix is stripped once, not until gone. -/
theorem normalize_counterexample :
    ((resolveModel (fun _ => 0) 0 "virtual/m"
      (fun k => if k = "virtual/m" then
        some ⟨.sequential, none, none, none,
          [⟨"anthropic/anthropic/claude", "anthropic", none⟩]⟩ else none)
      (fun _ => none) createRouterState).1.map ResolvedTarget.modelID
      = some "anthropic/claude") ∧
    (("anthropic" ++ "/").data.isPrefixOf ("anthropic/claude" : String).data
      = true) := by
  constructor
  · rfl
  · decide

/-! ## index.ts — the plugin event hook (claim C1) -/

/-- The `session.error` payload fields the hook looks at
(`error.name`, `error.data?.statusCode`). -/
structure SessionError where
  name : Option String
  statusCode : Option ℕ
deriving DecidableEq

/-- The plugin closure state: the router state plus the per-session
fallback cursor and per-session virtual model maps. -/
structure PluginState where
  router : RouterState
  sessionFallbackCursor : String → Option ℕ
  sessionVirtualModel : String → Option String

/-- The loaded config as the hook sees it. -/
structure PluginConfig where
  virtualModels : String → Option VirtualModelConfig
  strategyProfiles : String → Option StrategyProfile

/-- What one `event` hook invocation for a `session.error` does, as seen
from outside: nothing, report exhaustion (after deleting the session
cursor), find no viable remaining target, or fall back to a target
(re-prompting the session with it). -/
inductive EventOutcome where
  | ignored
  | exhausted
  | noViable
  | fellBack (providerID modelID : String)
deriving DecidableEq

/-- `shouldFallbackForError` from `src/index.ts`. -/
def shouldFallbackForError (error : SessionError)
    (modelConfig : VirtualModelConfig)
    (strategyProfiles : String → Option StrategyProfile) : Bool :=
  if (mergeWithProfile modelConfig
      (resolveProfile modelConfig strategyProfiles)).fallback_on.contains
        .anyError then
    true
  else
    match error.statusCode with
    | some st =>
      if (mergeWithProfile modelConfig
          (resolveProfile modelConfig strategyProfiles)).fallback_on.contains
            (.code st) then
        true
      else error.name = some "ProviderAuthError"
    | none => error.name = some "ProviderAuthError"

/-- The pure value of an `isInCooldown` test (the boolean it returns,
independent of its lazy cleanup). -/
def cooledPure (st : RouterState) (key : String) (now : ℚ) : Bool :=
  match st.cooldowns key with
  | none => false
  | some e => if e = 0 then false else decide (now < e)

lemma isInCooldown_fst (key : String) (now : ℚ) (st : RouterState) :
    (isInCooldown key now st).1 = cooledPure st key now := by
  unfold isInCooldown cooledPure
  rcases h : st.cooldowns key with _ | e
  · rfl
  · dsimp only
    by_cases he : e = 0
    · rw [if_pos he, if_pos he]
    · rw [if_neg he, if_neg he]
      by_cases hle : now ≥ e
      · rw [if_pos hle]
        simp [not_lt.mpr hle]
      · rw [if_neg hle]
        simp [lt_of_not_ge hle]

lemma isInCooldown_preserve (key k : String) (now : ℚ) (st : RouterState) :
    cooledPure (isInCooldown key now st).2 k now = cooledPure st k now := by
  unfold isInCooldown
  rcases h : st.cooldowns key with _ | e
  · rfl
  · dsimp only
    by_cases he : e = 0
    · rw [if_pos he]
    · rw [if_neg he]
      by_cases hle : now ≥ e
      · rw [if_pos hle]
        by_cases hk : k = key
        · subst hk
          unfold cooledPure
          rw [h]
          simp only [mapDel, if_pos rfl]
          rw [if_neg he]
          simp [not_lt.mpr hle]
        · unfold cooledPure
          simp [mapDel, hk]
      · rw [if_neg hle]

/-- The forward scan of the event hook (`for (let i = nextCursor; ...)`):
walks the remaining targets, skipping cooled-down ones, threading the
router state through `isInCooldown`'s lazy deletions; returns the found
absolute index plus provider and normalised model id. -/
def scanViable (now : ℚ) :
    List TargetModel → ℕ → RouterState →
      Option (ℕ × String × String) × RouterState
  | [], _, st => (none, st)
  | t :: ts, i, st =>
    if (isInCooldown (t.provider ++ "/" ++ normalizeModelID t.provider t.model)
        now st).1 then
      scanViable now ts (i + 1)
        (isInCooldown (t.provider ++ "/" ++ normalizeModelID t.provider t.model)
          now st).2
    else
      (some (i, t.provider, normalizeModelID t.provider t.model),
       (isInCooldown (t.provider ++ "/" ++ normalizeModelID t.provider t.model)
         now st).2)

/-- The key of a target, as the hook computes it. -/
def targetKey (t : TargetModel) : String :=
  t.provider ++ "/" ++ normalizeModelID t.provider t.model

/-- `scanViable` finds exactly the first non-cooled-down target: if it
returns an index, that index points at the first element of the list
whose key is not in cooldown (with respect to the pure view of the
starting state), and on `none` every element was cooled down. -/
lemma scanViable_spec (now : ℚ) :
    ∀ (l : List TargetModel) (i0 : ℕ) (st : RouterState),
      (∀ i pv mid st', scanViable now l i0 st = (some (i, pv, mid), st') →
        ∃ j t, l.get? j = some t ∧ i = i0 + j ∧ pv = t.provider ∧
          mid = normalizeModelID t.provider t.model ∧
          cooledPure st (targetKey t) now = false ∧
          (∀ j' t', j' < j → l.get? j' = some t' →
            cooledPure st (targetKey t') now = true)) ∧
      (∀ st', scanViable now l i0 st = (none, st') →
        ∀ j t, l.get? j = some t → cooledPure st (targetKey t) now = true) := by
  intro l
  induction l with
  | nil =>
    intro i0 st
    constructor
    · intro i pv mid st' h
      simp [scanViable] at h
    · intro st' _ j t hj
      simp at hj
  | cons t0 ts ih =>
    intro i0 st
    have hkey : (t0.provider ++ "/" ++ normalizeModelID t0.provider t0.model)
        = targetKey t0 := rfl
    constructor
    · intro i pv mid st' h
      unfold scanViable at h
      by_cases hc : (isInCooldown (targetKey t0) now st).1 = true
      · rw [hkey] at h
        rw [if_pos hc] at h
        obtain ⟨j, t, hjt, hi, hpv, hmid, hcool, hmin⟩ :=
          (ih (i0 + 1) (isInCooldown (targetKey t0) now st).2).1 i pv mid st' h
        refine ⟨j + 1, t, by simpa using hjt, by omega, hpv, hmid, ?_, ?_⟩
        · rw [← isInCooldown_preserve (targetKey t0) (targetKey t) now st]
          exact hcool
        · intro j' t' hj' hjt'
          rcases j' with _ | j''
          · simp only [List.get?] at hjt'
            cases hjt'
            rw [← isInCooldown_fst]
            exact hc
          · rw [← isInCooldown_preserve (targetKey t0) (targetKey t') now st]
            exact hmin j'' t' (by omega) (by simpa using hjt')
      · rw [hkey] at h
        rw [if_neg hc] at h
        simp only [Prod.mk.injEq, Option.some.injEq] at h
        obtain ⟨⟨hi, hpv, hmid⟩, hst⟩ := h
        refine ⟨0, t0, rfl, by omega, hpv.symm, hmid.symm, ?_, ?_⟩
        · rw [← isInCooldown_fst]
          simpa using hc
        · intro j' t' hj' _
          omega
    · intro st' h j t hjt
      unfold scanViable at h
      by_cases hc : (isInCooldown (targetKey t0) now st).1 = true
      · rw [hkey] at h
        rw [if_pos hc] at h
        rcases j with _ | j'
        · simp only [List.get?] at hjt
          cases hjt
          rw [← isInCooldown_fst]
          exact hc
        · rw [← isInCooldown_preserve (targetKey t0) (targetKey t) now st]
          exact (ih (i0 + 1) (isInCooldown (targetKey t0) now st).2).2 st' h j' t
            (by simpa using hjt)
      · rw [hkey] at h
        rw [if_neg hc] at h
        cases h

/-- The `if (currentTarget) { ... }` block of the event hook: record a
failure and a fallback for the current target and put it in cooldown for
the merged policy's duration (absent cooldown ⇒ no-op;
`parseDuration` may throw, hence `Except`). -/
def failRecord (now : ℚ) (cfg : PluginConfig) (config : VirtualModelConfig)
    (targets : List TargetModel) (currentCursor : ℕ)
    (router1 : RouterState) : Except String RouterState :=
  match targets.get? currentCursor with
  | some t =>
    setCooldown (targetKey t)
      (mergeWithProfile config (resolveProfile config cfg.strategyProfiles)).cooldown
      now (recordFallback (targetKey t) (recordFailure (targetKey t) router1))
  | none => .ok router1

/-- The cursor-advance part of the event hook: `nextCursor = current + 1`;
past the end ⇒ delete the session entry and report exhaustion; otherwise
store `nextCursor`, scan forward for the first non-cooled-down target and
store its index (reporting the target), or leave the cursor at
`nextCursor` when everything remaining is cooled down. -/
def advanceCursor (now : ℚ) (sessionID : String)
    (targets : List TargetModel) (currentCursor : ℕ)
    (router2 : RouterState) (ps : PluginState) : PluginState × EventOutcome :=
  if targets.length ≤ currentCursor + 1 then
    (⟨router2, mapDel ps.sessionFallbackCursor sessionID,
      ps.sessionVirtualModel⟩, .exhausted)
  else
    match scanViable now (targets.drop (currentCursor + 1))
        (currentCursor + 1) router2 with
    | (some inm, router3) =>
      (⟨router3, mapSet ps.sessionFallbackCursor sessionID inm.1,
        ps.sessionVirtualModel⟩, .fellBack inm.2.1 inm.2.2)
    | (none, router3) =>
      (⟨router3, mapSet ps.sessionFallbackCursor sessionID (currentCursor + 1),
        ps.sessionVirtualModel⟩, .noViable)

/-- The `event` hook of `VirtualProviderPlugin` (`src/index.ts`) for a
`session.error` event, as a function of the plugin state.  `!sessionID`
is a falsiness test (empty string); an absent session binding, unknown
virtual model or non-matching error is a no-op.  An absent cursor entry
reads as 0 via `?? 0`. -/
def eventHook (rng : ℕ → ℚ) (now : ℚ) (cfg : PluginConfig)
    (sessionID : String) (error : SessionError) (ps : PluginState) :
    Except String (PluginState × EventOutcome) :=
  if sessionID = "" then .ok (ps, .ignored)
  else
    match ps.sessionVirtualModel sessionID with
    | none => .ok (ps, .ignored)
    | some vmid =>
      match cfg.virtualModels vmid with
      | none => .ok (ps, .ignored)
      | some config =>
        if shouldFallbackForError error config cfg.strategyProfiles then
          (failRecord now cfg config
            (selectTargets rng vmid config ps.router).1
            ((ps.sessionFallbackCursor sessionID).getD 0)
            (selectTargets rng vmid config ps.router).2).map
            (fun router2 =>
              advanceCursor now sessionID
                (selectTargets rng vmid config ps.router).1
                ((ps.sessionFallbackCursor sessionID).getD 0) router2 ps)
        else .ok (ps, .ignored)

/-- Claim C1 (amended): on a failure report for a session bound to a
virtual model, with `c` the stored cursor read as 0 when the entry is
absent — so a session whose entry was deleted by a previous exhaustion
restarts progression from index 0 rather than being a no-op — the hook
records the failure on target `c`, then: if `c + 1` is past the end of
the list, it deletes the session's cursor entry and reports exhaustion;
otherwise it scans forward from `c + 1` and records the index of the
first non-cooled-down target (reporting that target), or leaves the
cursor at `c + 1` reporting no viable target when all remaining targets
are cooled down (no deletion in that case); cursors of other sessions
are untouched. -/
theorem eventHook_cursor_spec (rng : ℕ → ℚ) (now : ℚ) (cfg : PluginConfig)
    (sessionID : String) (error : SessionError) (ps : PluginState)
    (vmid : String) (config : VirtualModelConfig) (router2 : RouterState)
    (ps' : PluginState) (out : EventOutcome)
    (hsid : sessionID ≠ "")
    (hvm : ps.sessionVirtualModel sessionID = some vmid)
    (hconfig : cfg.virtualModels vmid = some config)
    (htrig : shouldFallbackForError error config cfg.strategyProfiles = true)
    (hrec : failRecord now cfg config (selectTargets rng vmid config ps.router).1
      ((ps.sessionFallbackCursor sessionID).getD 0)
      (selectTargets rng vmid config ps.router).2 = .ok router2)
    (hres : eventHook rng now cfg sessionID error ps = .ok (ps', out)) :
    ((selectTargets rng vmid config ps.router).1.length
        ≤ (ps.sessionFallbackCursor sessionID).getD 0 + 1 →
      ps'.sessionFallbackCursor sessionID = none ∧ out = .exhausted) ∧
    (∀ i pv mid router3,
      (ps.sessionFallbackCursor sessionID).getD 0 + 1
        < (selectTargets rng vmid config ps.router).1.length →
      scanViable now ((selectTargets rng vmid config ps.router).1.drop
          ((ps.sessionFallbackCursor sessionID).getD 0 + 1))
        ((ps.sessionFallbackCursor sessionID).getD 0 + 1) router2
        = (some (i, pv, mid), router3) →
      ps'.sessionFallbackCursor sessionID = some i ∧ out = .fellBack pv mid ∧
        ps'.router = router3 ∧
      (∃ j t, ((selectTargets rng vmid config ps.router).1.drop
            ((ps.sessionFallbackCursor sessionID).getD 0 + 1)).get? j = some t ∧
        i = (ps.sessionFallbackCursor sessionID).getD 0 + 1 + j ∧
        pv = t.provider ∧ mid = normalizeModelID t.provider t.model ∧
        cooledPure router2 (targetKey t) now = false ∧
        (∀ j' t', j' < j →
          ((selectTargets rng vmid config ps.router).1.drop
            ((ps.sessionFallbackCursor sessionID).getD 0 + 1)).get? j' = some t' →
          cooledPure router2 (targetKey t') now = true))) ∧
    (∀ router3,
      (ps.sessionFallbackCursor sessionID).getD 0 + 1
        < (selectTargets rng vmid config ps.router).1.length →
      scanViable now ((selectTargets rng vmid config ps.router).1.drop
          ((ps.sessionFallbackCursor sessionID).getD 0 + 1))
        ((ps.sessionFallbackCursor sessionID).getD 0 + 1) router2
        = (none, router3) →
      ps'.sessionFallbackCursor sessionID
          = some ((ps.sessionFallbackCursor sessionID).getD 0 + 1) ∧
        out = .noViable ∧ ps'.router = router3) ∧
    (∀ k, k ≠ sessionID →
      ps'.sessionFallbackCursor k = ps.sessionFallbackCursor k) := by
  unfold eventHook at hres
  rw [if_neg hsid, hvm] at hres
  dsimp only at hres
  rw [hconfig] at hres
  dsimp only at hres
  rw [if_pos htrig, hrec] at hres
  simp only [Except.map, Except.ok.injEq] at hres
  have hadv : (ps', out) = advanceCursor now sessionID
      (selectTargets rng vmid config ps.router).1
      ((ps.sessionFallbackCursor sessionID).getD 0) router2 ps := hres.symm
  refine ⟨?_, ?_, ?_, ?_⟩
  · intro hlen
    unfold advanceCursor at hadv
    rw [if_pos hlen] at hadv
    have hps : ps' = ⟨router2, mapDel ps.sessionFallbackCursor sessionID,
        ps.sessionVirtualModel⟩ := congrArg Prod.fst hadv
    have hout : out = .exhausted := congrArg Prod.snd hadv
    rw [hps]
    exact ⟨by simp [mapDel], hout⟩
  · intro i pv mid router3 hlt hscan
    unfold advanceCursor at hadv
    rw [if_neg (by omega), hscan] at hadv
    have hps : ps' = ⟨router3, mapSet ps.sessionFallbackCursor sessionID i,
        ps.sessionVirtualModel⟩ := congrArg Prod.fst hadv
    have hout : out = .fellBack pv mid := congrArg Prod.snd hadv
    refine ⟨by rw [hps]; simp [mapSet], hout, by rw [hps], ?_⟩
    exact (scanViable_spec now _ _ router2).1 i pv mid router3 hscan
  · intro router3 hlt hscan
    unfold advanceCursor at hadv
    rw [if_neg (by omega), hscan] at hadv
    have hps : ps' = ⟨router3, mapSet ps.sessionFallbackCursor sessionID
        ((ps.sessionFallbackCursor sessionID).getD 0 + 1),
        ps.sessionVirtualModel⟩ := congrArg Prod.fst hadv
    have hout : out = .noViable := congrArg Prod.snd hadv
    exact ⟨by rw [hps]; simp [mapSet], hout, by rw [hps]⟩
  · intro k hk
    unfold advanceCursor at hadv
    by_cases hlen : (selectTargets rng vmid config ps.router).1.length
        ≤ (ps.sessionFallbackCursor sessionID).getD 0 + 1
    · rw [if_pos hlen] at hadv
      have hps : ps' = ⟨router2, mapDel ps.sessionFallbackCursor sessionID,
          ps.sessionVirtualModel⟩ := congrArg Prod.fst hadv
      rw [hps]
      simp [mapDel, hk]
    · rw [if_neg hlen] at hadv
      rcases hscan : scanViable now ((selectTargets rng vmid config ps.router).1.drop
          ((ps.sessionFallbackCursor sessionID).getD 0 + 1))
          ((ps.sessionFallbackCursor sessionID).getD 0 + 1) router2 with ⟨o, router3⟩
      rw [hscan] at hadv
      rcases o with _ | inm
      · have hps : ps' = ⟨router3, mapSet ps.sessionFallbackCursor sessionID
            ((ps.sessionFallbackCursor sessionID).getD 0 + 1),
            ps.sessionVirtualModel⟩ := congrArg Prod.fst hadv
        rw [hps]
        simp [mapSet, hk]
      · have hps : ps' = ⟨router3, mapSet ps.sessionFallbackCursor sessionID inm.1,
            ps.sessionVirtualModel⟩ := congrArg Prod.fst hadv
        rw [hps]
        simp [mapSet, hk]

/-- Counterexample for C1 as stated: a session whose cursor entry was
deleted by exhaustion is NOT a no-op on a further failure report — the
absent entry reads as 0, the hook records a failure on target 0 (its
failure counter becomes 1) and falls back to index 1, storing the cursor
again. -/
theorem fallback_restart_counterexample :
    (eventHook (fun _ => 0) 0
      ⟨fun k => if k = "virtual/m" then
          some ⟨.sequential, none, none, none,
            [⟨"a", "pa", none⟩, ⟨"b", "pb", none⟩]⟩ else none,
        fun _ => none⟩
      "s" ⟨none, some 429⟩
      ⟨createRouterState, fun _ => none,
       fun k => if k = "s" then some "virtual/m" else none⟩).map
      (fun r => (r.2, r.1.sessionFallbackCursor "s",
                 (mview r.1.router "pa/a").failures))
      = .ok (.fellBack "pb" "b", some 1, 1) := by
  rfl

/-- Witness for C1 (amended): the same scenario; the theorem applies with
every hypothesis discharged at this input, and cursors of other sessions
are untouched. -/
theorem eventHook_cursor_spec_witness :
    (("s" : String) ≠ "") ∧
    ((⟨recordFallback "pa/a" (recordFailure "pa/a" createRouterState),
        mapSet (fun _ => none) "s" 1,
        fun k => if k = "s" then some "virtual/m" else none⟩ :
          PluginState).sessionFallbackCursor "x"
      = ((⟨createRouterState, fun _ => none,
          fun k => if k = "s" then some "virtual/m" else none⟩ :
            PluginState).sessionFallbackCursor "x")) :=
  ⟨by decide,
   (eventHook_cursor_spec (fun _ => 0) 0
     ⟨fun k => if k = "virtual/m" then
         some ⟨.sequential, none, none, none,
           [⟨"a", "pa", none⟩, ⟨"b", "pb", none⟩]⟩ else none,
       fun _ => none⟩
     "s" ⟨none, some 429⟩
     ⟨createRouterState, fun _ => none,
      fun k => if k = "s" then some "virtual/m" else none⟩
     "virtual/m"
     ⟨.sequential, none, none, none, [⟨"a", "pa", none⟩, ⟨"b", "pb", none⟩]⟩
     (recordFallback "pa/a" (recordFailure "pa/a" createRouterState))
     ⟨recordFallback "pa/a" (recordFailure "pa/a" createRouterState),
       mapSet (fun _ => none) "s" 1,
       fun k => if k = "s" then some "virtual/m" else none⟩
     (.fellBack "pb" "b")
     (by decide) rfl rfl rfl rfl rfl).2.2.2 "x" (by decide)⟩

end OMR
